import Mathlib

/-!
Verification of the range-oriented spreadsheet read/write module
(`excel_mcp/data.py`): coordinate resolution, boundary inference,
cell extraction, the formula-resolution fallback chain, and the writer.

The embedding is shallow: the workbook storage layer (openpyxl) is
modelled as finite association lists of allocated cells, file opening
as an `Except`-valued input, the formula evaluator (xlcalculator) as an
optional function from tokens to evaluation outcomes, and the mutable
lazily-opened values-only fallback workbook as explicit state passing.
-/

/-- A Python scalar cell value; `none` is Python `None` (an empty cell). -/
inductive PyVal
  | none
  | int (n : Int)
  | str (s : String)
deriving DecidableEq

/-- A stored cell: its value and whether the storage layer marks it as a
formula cell (openpyxl `data_type == "f"`). -/
structure Cell where
  value : PyVal
  isFormulaType : Bool
deriving DecidableEq

/-- The cell returned for an unallocated coordinate: empty, not a formula. -/
def emptyCell : Cell := ⟨PyVal.none, false⟩

/-- A worksheet: the finite list of allocated cells keyed by (row, column).
Models the openpyxl worksheet consumed through `cell`, `min_row`,
`min_column`, `max_row`, `max_column`. -/
structure Worksheet where
  cells : List ((Nat × Nat) × Cell)
deriving DecidableEq

/-- Modelled openpyxl collaborator: `ws.cell(row, column)` as a pure lookup
defaulting to an empty cell. -/
def Worksheet.cell (ws : Worksheet) (row col : Nat) : Cell :=
  match ws.cells.find? (fun e => e.fst = (row, col)) with
  | some e => e.snd
  | Option.none => emptyCell

/-- Modelled openpyxl collaborator: minimum row of the used range
(1 for a sheet with no allocated cells). -/
def Worksheet.min_row (ws : Worksheet) : Nat :=
  match (ws.cells.map (fun e => e.fst.fst)).min? with
  | some m => m
  | Option.none => 1

/-- Modelled openpyxl collaborator: minimum column of the used range. -/
def Worksheet.min_column (ws : Worksheet) : Nat :=
  match (ws.cells.map (fun e => e.fst.snd)).min? with
  | some m => m
  | Option.none => 1

/-- Modelled openpyxl collaborator: maximum row of the used range. -/
def Worksheet.max_row (ws : Worksheet) : Nat :=
  match (ws.cells.map (fun e => e.fst.fst)).max? with
  | some m => m
  | Option.none => 1

/-- Modelled openpyxl collaborator: maximum column of the used range. -/
def Worksheet.max_column (ws : Worksheet) : Nat :=
  match (ws.cells.map (fun e => e.fst.snd)).max? with
  | some m => m
  | Option.none => 1

/-- A workbook: named sheets plus the active-sheet title. -/
structure Workbook where
  sheets : List (String × Worksheet)
  active : Option String
deriving DecidableEq

/-- Modelled openpyxl collaborator: `wb.sheetnames`. -/
def Workbook.sheetnames (wb : Workbook) : List String :=
  wb.sheets.map Prod.fst

/-- Modelled openpyxl collaborator: `wb[name]`; total with an empty default,
only reached after a membership check in the source. -/
def Workbook.getSheet (wb : Workbook) (name : String) : Worksheet :=
  match wb.sheets.find? (fun e => e.fst = name) with
  | some e => e.snd
  | Option.none => ⟨[]⟩

/-- Modelled openpyxl collaborator: `wb.create_sheet(name)`. -/
def Workbook.create_sheet (wb : Workbook) (name : String) : Workbook :=
  ⟨wb.sheets ++ [(name, ⟨[]⟩)], wb.active⟩

/-- Replace the sheet stored under `name` (writes mutate the workbook). -/
def Workbook.setSheet (wb : Workbook) (name : String) (ws : Worksheet) : Workbook :=
  ⟨wb.sheets.map (fun e => if e.fst = name then (e.fst, ws) else e), wb.active⟩

/-- Update-or-append an entry of the allocated-cell list. -/
def setEntry : List ((Nat × Nat) × Cell) → Nat → Nat → Cell → List ((Nat × Nat) × Cell)
  | [], r, c, cl => [((r, c), cl)]
  | e :: rest, r, c, cl =>
    if e.fst = (r, c) then (e.fst, cl) :: rest else e :: setEntry rest r c cl

/-- Python `s.startswith("=")`: whether the first character is the formula
sigil (a character-list test, so that it evaluates by kernel reduction). -/
def hasFormulaSigil (s : String) : Bool :=
  match s.toList with
  | '=' :: _ => true
  | _ => false

/-- Modelled openpyxl collaborator: `ws.cell(row, column, value=v)`; the
storage layer re-infers the formula type marker from a leading "=". -/
def Worksheet.setCellValue (ws : Worksheet) (row col : Nat) (v : PyVal) : Worksheet :=
  let isF := match v with
    | PyVal.str s => hasFormulaSigil s
    | _ => false
  ⟨setEntry ws.cells row col ⟨v, isF⟩⟩

/-- The two exception kinds visible to this module: the module's own
data-access error (`DataError`) and any other lower-layer exception,
each carrying its message. -/
inductive PyErr
  | dataError (msg : String)
  | otherError (msg : String)
deriving DecidableEq

/-- The operation-boundary `try/except`: a `DataError` propagates unchanged,
any other exception is re-raised as `DataError(str(e))`. -/
def wrapDataError {α : Type} (r : Except PyErr α) : Except PyErr α :=
  match r with
  | .ok v => .ok v
  | .error (PyErr.dataError m) => .error (PyErr.dataError m)
  | .error (PyErr.otherError m) => .error (PyErr.dataError m)

/-- Modelled from the spec: the Coordinate Resolver of `cell_utils`
(`parse_cell_range`, not under src/) splits a combined range string on the
first colon; this is the split on a character list. -/
def splitColon : List Char → List (List Char)
  | [] => [[]]
  | ch :: rest =>
    match splitColon rest with
    | [] => [[]]
    | g :: gs => if ch = ':' then [] :: g :: gs else (ch :: g) :: gs

/-- Rejoin the groups after the first one (splitting on the first colon
keeps any later colons inside the second component). -/
def joinColon : List (List Char) → List Char
  | [] => []
  | [g] => g
  | g :: gs => g ++ ':' :: joinColon gs

/-- Modelled from the spec: parse a single cell reference, a
column-letters-then-row-digits pattern, 1-indexed, rejecting anything else
(`cell_utils` is not under src/; spec section 3 and 4.1). -/
def parseCellRefL (l : List Char) : Option (Nat × Nat) :=
  let letters := l.takeWhile (fun ch => decide (65 ≤ ch.toNat) && decide (ch.toNat ≤ 90))
  let digits := l.drop letters.length
  if letters.isEmpty then Option.none
  else if digits.isEmpty then Option.none
  else if !(digits.all Char.isDigit) then Option.none
  else
    let col := letters.foldl (fun a ch => a * 26 + (ch.toNat - 64)) 0
    let row := digits.foldl (fun a ch => a * 10 + (ch.toNat - 48)) 0
    if row = 0 then Option.none else some (row, col)

/-- Modelled from the spec: `cell_utils.parse_cell_range` — split on the
first colon, resolve one or both components; a failed component yields no
coordinates (the caller turns that into a data-access error). -/
def parse_cell_range (s : String) : Option ((Nat × Nat) × Option (Nat × Nat)) :=
  match splitColon s.toList with
  | [] => Option.none
  | [a] => (parseCellRefL a).map (fun p => (p, Option.none))
  | a :: rest =>
    match parseCellRefL a, parseCellRefL (joinColon rest) with
    | some p, some q => some (p, some q)
    | _, _ => Option.none

/-- Modelled openpyxl collaborator: `get_column_letter` (fuel recursion on
the column index). -/
def colLettersAux : Nat → Nat → String
  | 0, _ => ""
  | fuel + 1, n =>
    if n = 0 then ""
    else colLettersAux fuel ((n - 1) / 26) ++ String.mk [Char.ofNat (65 + (n - 1) % 26)]

/-- Modelled openpyxl collaborator: column index to letters ("A".."Z", "AA", ...). -/
def get_column_letter (n : Nat) : String := colLettersAux n n

/-- Python truthiness of the optional `end_cell` argument: `None` and the
empty string are falsy. -/
def endTruthy : Option String → Bool
  | Option.none => false
  | some s => !s.isEmpty

/-- Lines 98-100 / 306-308 of data.py: `if ':' in start_cell: start_cell,
end_cell = start_cell.split(':')`; three or more parts make the tuple
unpacking raise a ValueError. -/
def splitStartCell (start_cell : String) (end_cell : Option String) :
    Except PyErr (String × Option String) :=
  if start_cell.toList.any (fun ch => ch == ':') then
    match splitColon start_cell.toList with
    | [a, b] => .ok (String.mk a, some (String.mk b))
    | _ => .error (PyErr.otherError "too many values to unpack (expected 2)")
  else .ok (start_cell, end_cell)

/-- Lines 98-128 of data.py: the plain read's region resolution — colon
split, start/end parsing, and boundary inference (an omitted end widens to
the sheet bounds and replaces the start by the sheet minimum
unconditionally; an empty sheet collapses to the start cell).
Returns the post-split start string with the region. -/
def plainResolveRegion (ws : Worksheet) (start_cell0 : String)
    (end_cell0 : Option String) : Except PyErr (String × Nat × Nat × Nat × Nat) :=
  match splitStartCell start_cell0 end_cell0 with
  | .error e => .error e
  | .ok (start_cell, end_cell) =>
    match parse_cell_range (start_cell ++ ":" ++ start_cell) with
    | Option.none =>
      .error (PyErr.dataError ("Invalid start cell reference: " ++ start_cell))
    | some ((start_row, start_col), _) =>
      if endTruthy end_cell then
        match parse_cell_range ((end_cell.getD "") ++ ":" ++ (end_cell.getD "")) with
        | Option.none =>
          .error (PyErr.dataError ("Invalid end cell reference: " ++ end_cell.getD ""))
        | some ((end_row, end_col), _) =>
          .ok (start_cell, start_row, start_col, end_row, end_col)
      else
        if ws.max_row = 1 ∧ ws.max_column = 1 ∧ (ws.cell 1 1).value = PyVal.none then
          .ok (start_cell, start_row, start_col, start_row, start_col)
        else
          .ok (start_cell, ws.min_row, ws.min_column, ws.max_row, ws.max_column)

/-- Lines 306-338 of data.py: the metadata read's region resolution — like
the plain one, except that with an omitted end the end widens to the sheet
maximum while the start is replaced by the sheet minimum only when the
post-split start string is exactly "A1". -/
def metaResolveRegion (ws : Worksheet) (start_cell0 : String)
    (end_cell0 : Option String) : Except PyErr (String × Nat × Nat × Nat × Nat) :=
  match splitStartCell start_cell0 end_cell0 with
  | .error e => .error e
  | .ok (start_cell, end_cell) =>
    match parse_cell_range (start_cell ++ ":" ++ start_cell) with
    | Option.none =>
      .error (PyErr.dataError ("Invalid start cell reference: " ++ start_cell))
    | some ((start_row, start_col), _) =>
      if endTruthy end_cell then
        match parse_cell_range ((end_cell.getD "") ++ ":" ++ (end_cell.getD "")) with
        | Option.none =>
          .error (PyErr.dataError ("Invalid end cell reference: " ++ end_cell.getD ""))
        | some ((end_row, end_col), _) =>
          .ok (start_cell, start_row, start_col, end_row, end_col)
      else
        if ws.max_row = 1 ∧ ws.max_column = 1 ∧ (ws.cell 1 1).value = PyVal.none then
          .ok (start_cell, start_row, start_col, start_row, start_col)
        else
          if start_cell = "A1" then
            .ok (start_cell, ws.min_row, ws.min_column, ws.max_row, ws.max_column)
          else
            .ok (start_cell, start_row, start_col, ws.max_row, ws.max_column)

/-- Resource/logging trace of one read request: whether the primary handle
was opened and closed, whether the values-only fallback handle was ever
opened and closed, and whether a boundary warning was logged. -/
structure Trace where
  wbOpened : Bool
  wbClosed : Bool
  wbvOpened : Bool
  wbvClosed : Bool
  warned : Bool
deriving DecidableEq

/-- Lines 141-151 of data.py: the row-major value walk of the resolved
region, dropping rows whose values are all `None`. -/
def plainRegionRows (ws : Worksheet) (start_row start_col end_row end_col : Nat) :
    List (List PyVal) :=
  ((List.range (end_row + 1 - start_row)).map (fun i =>
    (List.range (end_col + 1 - start_col)).map (fun j =>
      (ws.cell (start_row + i) (start_col + j)).value))).filter
    (fun row_data => row_data.any (fun v => !decide (v = PyVal.none)))

/-- Lines 89-151 of data.py: the body of `read_excel_range` before the
operation-boundary exception handling, with the resource/warning trace as
explicit output.  The `preview_only` parameter is accepted and unused,
as in the source. -/
def read_excel_range_body (wbOpen : Except String Workbook) (sheet_name : String)
    (start_cell : String) (end_cell : Option String) (preview_only : Bool) :
    Except PyErr (List (List PyVal)) × Trace :=
  match preview_only, wbOpen with
  | _, .error m => (.error (PyErr.otherError m), ⟨false, false, false, false, false⟩)
  | _, .ok wb =>
    if sheet_name ∈ wb.sheetnames then
      let ws := wb.getSheet sheet_name
      match plainResolveRegion ws start_cell end_cell with
      | .error e => (.error e, ⟨true, false, false, false, false⟩)
      | .ok (_, start_row, start_col, end_row, end_col) =>
        if start_row > ws.max_row ∨ start_col > ws.max_column then
          (.ok [], ⟨true, false, false, false, true⟩)
        else
          (.ok (plainRegionRows ws start_row start_col end_row end_col),
           ⟨true, true, false, false, false⟩)
    else
      (.error (PyErr.dataError ("Sheet \x27" ++ sheet_name ++ "\x27 not found")),
       ⟨true, false, false, false, false⟩)

/-- Lines 82-157 of data.py: `read_excel_range` — the body wrapped by the
operation-boundary `try/except` (DataError re-raised unchanged, anything
else wrapped as DataError with the same message). -/
def read_excel_range (wbOpen : Except String Workbook) (sheet_name : String)
    (start_cell : String) (end_cell : Option String) (preview_only : Bool) :
    Except PyErr (List (List PyVal)) × Trace :=
  let r := read_excel_range_body wbOpen sheet_name start_cell end_cell preview_only
  (wrapDataError r.fst, r.snd)

/-- One call of the external xlcalculator evaluator on a token: a value
(possibly Python `None`), a KeyError (lookup-style failure), or any other
exception. -/
inductive EvalOutcome
  | ok (v : PyVal)
  | keyError
  | otherError
deriving DecidableEq

/-- Python `str.replace` of a single quote by a doubled single quote,
on the character list. -/
def replaceQuotes : List Char → List Char
  | [] => []
  | ch :: rest =>
    if ch = '\x27' then ch :: ch :: replaceQuotes rest
    else ch :: replaceQuotes rest

/-- Lines 51-55 of data.py: the two candidate evaluator tokens —
`sheet!address` and the single-quoted form with embedded quotes doubled. -/
def formulaTokens (sheet_name cell_address : String) : List String :=
  [sheet_name ++ "!" ++ cell_address,
   "\x27" ++ String.mk (replaceQuotes sheet_name.toList) ++ "\x27!" ++ cell_address]

/-- Lines 56-72 of data.py: the token loop — return the first non-`None`
evaluation result; a KeyError tries the next token; a `None` result also
falls through to the next token; any other exception breaks out of the
loop (no further tokens). `Option.none` means the loop produced nothing. -/
def evalLoop (evaluator : String → EvalOutcome) : List String → Option PyVal
  | [] => Option.none
  | t :: rest =>
    match evaluator t with
    | EvalOutcome.ok v => if v = PyVal.none then evalLoop evaluator rest else some v
    | EvalOutcome.keyError => evalLoop evaluator rest
    | EvalOutcome.otherError => Option.none

/-- Mutable state captured by the `_get_cached_value` closure: the
lazily-opened data_only workbook handle, its worksheet, and the memoized
failure flag; with trace fields counting open attempts and recording
whether the values handle was ever opened resp. closed inside the loader. -/
structure FbState where
  wbValues : Option Workbook
  wsValues : Option Worksheet
  failed : Bool
  openAttempts : Nat
  vOpened : Bool
  vClosed : Bool
deriving DecidableEq

/-- The fallback loader state before any call: nothing opened, not failed. -/
def fbInit : FbState := ⟨Option.none, Option.none, false, 0, false, false⟩

/-- Lines 271-297 of data.py: `_get_cached_value` — the request-scoped
fallback loader.  A memoized failure returns `None` immediately; otherwise
the data_only workbook is opened on first use (`values_open` is what that
`load_workbook` call would produce); a failed open, or a missing target
sheet (which also closes the fresh handle), permanently disables the
loader; an open handle serves cached cell values. -/
def _get_cached_value (values_open : Except String Workbook) (sheet_name : String)
    (row col : Nat) (st : FbState) : FbState × PyVal :=
  if st.failed then (st, PyVal.none)
  else
    match st.wbValues with
    | Option.none =>
      match values_open with
      | .error _ =>
        (⟨Option.none, st.wsValues, true, st.openAttempts + 1, st.vOpened, st.vClosed⟩,
         PyVal.none)
      | .ok wbv =>
        if sheet_name ∈ wbv.sheetnames then
          ((⟨some wbv, some (wbv.getSheet sheet_name), false,
             st.openAttempts + 1, true, st.vClosed⟩ : FbState),
           ((wbv.getSheet sheet_name).cell row col).value)
        else
          (⟨Option.none, st.wsValues, true, st.openAttempts + 1, true, true⟩,
           PyVal.none)
    | some _ =>
      match st.wsValues with
      | Option.none => (st, PyVal.none)
      | some wsv => (st, (wsv.cell row col).value)

/-- Lines 39-80 of data.py: `_evaluate_formula_cell` — try the evaluator on
the two tokens, then the fallback loader, then the provided default value.
The fallback loader is the state-passing embedding of the Python closure;
the loader of this module (`_get_cached_value`) catches its own exceptions
and never raises, so the defensive `except` around the loader call is
unreachable here. -/
def _evaluate_formula_cell (evaluator : Option (String → EvalOutcome))
    (sheet_name cell_address : String) (row column : Nat)
    (fallback_loader : Option (Nat → Nat → FbState → FbState × PyVal))
    (default_value : PyVal) (st : FbState) : PyVal × FbState :=
  let computed : Option PyVal :=
    match evaluator with
    | some ev => evalLoop ev (formulaTokens sheet_name cell_address)
    | Option.none => Option.none
  match computed with
  | some v => (v, st)
  | Option.none =>
    match fallback_loader with
    | some loader =>
      let (st2, cached_value) := loader row column st
      if cached_value = PyVal.none then (default_value, st2) else (cached_value, st2)
    | Option.none => (default_value, st)

/-- The validation entry of a cell record: the key is absent when
validation was not requested, an explicit "no validation" marker when
requested but none found, or the collaborator's opaque payload. -/
inductive ValidationField
  | absent
  | noValidation
  | info (v : String)
deriving DecidableEq

/-- One cell record of the metadata read result (address, value, row,
column, optional validation entry). -/
structure CellData where
  address : String
  value : PyVal
  row : Nat
  column : Nat
  validation : ValidationField
deriving DecidableEq

/-- The structured result of the metadata read: the rendered range string,
the sheet name, and the cell records. -/
structure RangeData where
  range : String
  sheet_name : String
  cells : List CellData
deriving DecidableEq

/-- Lines 367-373 of data.py: formula classification — the stored string of
a type-marked formula cell, or defensively any stored string starting with
"=" on a cell that is not type-marked. -/
def formulaTextOf (cell : Cell) : Option String :=
  if cell.isFormulaType then
    match cell.value with
    | PyVal.str s => some s
    | _ => Option.none
  else
    match cell.value with
    | PyVal.str s => if hasFormulaSigil s then some s else Option.none
    | _ => Option.none

/-- Row-major coordinates of the resolved inclusive region, as walked by the
nested loops of lines 359-360. -/
def regionCells (start_row start_col end_row end_col : Nat) : List (Nat × Nat) :=
  (List.range (end_row + 1 - start_row)).flatMap (fun i =>
    (List.range (end_col + 1 - start_col)).map (fun j => (start_row + i, start_col + j)))

/-- Lines 359-405 of data.py: the per-cell body of the metadata read loop —
classify the cell, route a formula cell through `_evaluate_formula_cell`
when evaluation was requested, consult the fallback loader directly for a
non-formula cell when evaluation was requested but no evaluator could be
built, attach the validation entry, and append the record.  The fallback
loader state threads through the accumulator. -/
def metaCellStep (ws : Worksheet) (sheet_name : String)
    (formula_evaluator : Option (String → EvalOutcome))
    (fallback_loader : Option (Nat → Nat → FbState → FbState × PyVal))
    (evaluate_formulas include_validation : Bool)
    (getv : Worksheet → String → Option String)
    (acc : List CellData × FbState) (rc : Nat × Nat) : List CellData × FbState :=
  let cells := acc.fst
  let st := acc.snd
  let row := rc.fst
  let col := rc.snd
  let cell := ws.cell row col
  let cell_address := get_column_letter col ++ toString row
  let formula_text := formulaTextOf cell
  let step :=
    match formula_text with
    | some ftext =>
      if evaluate_formulas then
        _evaluate_formula_cell formula_evaluator sheet_name cell_address row col
          fallback_loader (PyVal.str ftext) st
      else (cell.value, st)
    | Option.none =>
      if evaluate_formulas ∧ formula_evaluator.isNone ∧ fallback_loader.isSome then
        match fallback_loader with
        | some loader =>
          let (st3, fallback_value) := loader row col st
          if fallback_value = PyVal.none then (cell.value, st3) else (fallback_value, st3)
        | Option.none => (cell.value, st)
      else (cell.value, st)
  let validation :=
    if include_validation then
      match getv ws cell_address with
      | some vinfo => ValidationField.info vinfo
      | Option.none => ValidationField.noValidation
    else ValidationField.absent
  (cells ++ [⟨cell_address, step.fst, row, col, validation⟩], step.snd)

/-- Lines 259-410 of data.py: the body of `read_excel_range_with_metadata`
before the operation-boundary exception handling.  `wbOpen` is what
`load_workbook(file_path)` produces, `values_open` what the lazy
`load_workbook(file_path, data_only=True)` inside the fallback loader would
produce, `xlcalc` what `_build_formula_evaluator` returns (None when the
library is absent or construction failed), and `getv` the validation
collaborator (`get_data_validation_for_cell`, not under src/, treated as an
opaque pass-through per the spec). -/
def read_excel_range_with_metadata_body (wbOpen : Except String Workbook)
    (values_open : Except String Workbook) (xlcalc : Option (String → EvalOutcome))
    (getv : Worksheet → String → Option String) (sheet_name : String)
    (start_cell : String) (end_cell : Option String)
    (include_validation evaluate_formulas : Bool) :
    Except PyErr RangeData × Trace :=
  match wbOpen with
  | .error m => (.error (PyErr.otherError m), ⟨false, false, false, false, false⟩)
  | .ok wb =>
    let formula_evaluator := if evaluate_formulas then xlcalc else Option.none
    let fallback_loader : Option (Nat → Nat → FbState → FbState × PyVal) :=
      if evaluate_formulas then
        some (fun row col st => _get_cached_value values_open sheet_name row col st)
      else Option.none
    if sheet_name ∈ wb.sheetnames then
      let ws := wb.getSheet sheet_name
      match metaResolveRegion ws start_cell end_cell with
      | .error e => (.error e, ⟨true, false, false, false, false⟩)
      | .ok (start_cell1, start_row, start_col, end_row, end_col) =>
        if start_row > ws.max_row ∨ start_col > ws.max_column then
          (.ok ⟨start_cell1 ++ ":", sheet_name, []⟩, ⟨true, false, false, false, true⟩)
        else
          let range_str := get_column_letter start_col ++ toString start_row ++ ":" ++
            get_column_letter end_col ++ toString end_row
          let folded := (regionCells start_row start_col end_row end_col).foldl
            (metaCellStep ws sheet_name formula_evaluator fallback_loader
              evaluate_formulas include_validation getv) ([], fbInit)
          (.ok ⟨range_str, sheet_name, folded.fst⟩,
           ⟨true, true, folded.snd.vOpened,
            folded.snd.vClosed || folded.snd.wbValues.isSome, false⟩)
    else
      (.error (PyErr.dataError ("Sheet \x27" ++ sheet_name ++ "\x27 not found")),
       ⟨true, false, false, false, false⟩)

/-- Lines 237-417 of data.py: `read_excel_range_with_metadata` — the body
wrapped by the operation-boundary `try/except`. -/
def read_excel_range_with_metadata (wbOpen : Except String Workbook)
    (values_open : Except String Workbook) (xlcalc : Option (String → EvalOutcome))
    (getv : Worksheet → String → Option String) (sheet_name : String)
    (start_cell : String) (end_cell : Option String)
    (include_validation evaluate_formulas : Bool) :
    Except PyErr RangeData × Trace :=
  let r := read_excel_range_with_metadata_body wbOpen values_open xlcalc getv
    sheet_name start_cell end_cell include_validation evaluate_formulas
  (wrapDataError r.fst, r.snd)

/-- The inner loop of lines 227-229: write one row of values left to right,
starting at column `col0`. -/
def writeRowVals (ws : Worksheet) (row col0 : Nat) : List PyVal → Worksheet
  | [] => ws
  | v :: rest => writeRowVals (ws.setCellValue row col0 v) row (col0 + 1) rest

/-- The outer loop of lines 227-229: write the rows top to bottom, starting
at row `row0`. -/
def writeRows (ws : Worksheet) (row0 col0 : Nat) : List (List PyVal) → Worksheet
  | [] => ws
  | r :: rest => writeRows (writeRowVals ws row0 col0 r) (row0 + 1) col0 rest

/-- Lines 208-235 of data.py: `_write_data_to_worksheet` — validate the
data and the start cell, then place each scalar at
(start_row + i, start_col + j); wrapped by its own boundary handler. -/
def _write_data_to_worksheet (worksheet : Worksheet) (data : List (List PyVal))
    (start_cell : String) : Except PyErr Worksheet :=
  wrapDataError (
    if data.isEmpty then .error (PyErr.dataError "No data provided to write")
    else
      match parse_cell_range start_cell with
      | Option.none =>
        .error (PyErr.dataError ("Invalid start cell reference: " ++ start_cell))
      | some ((start_row, start_col), _) =>
        .ok (writeRows worksheet start_row start_col data))

/-- The result of `write_data`: the returned message and active sheet name,
together with the workbook state persisted by `wb.save`. -/
structure WriteOutcome where
  message : String
  active_sheet : String
  saved : Workbook
deriving DecidableEq

/-- Python truthiness of the optional data argument (`if not data`):
`None` and the empty list are falsy. -/
def dataTruthy : Option (List (List PyVal)) → Bool
  | Option.none => false
  | some rows => !rows.isEmpty

/-- Lines 169-200 of data.py: the body of `write_data` before the
operation-boundary exception handling — reject falsy data, open the
workbook, pick the active sheet when none is named (creating a missing
named sheet), validate the start cell, delegate the cell placement, and
save. -/
def write_data_body (wbOpen : Except String Workbook) (sheet_name : Option String)
    (data : Option (List (List PyVal))) (start_cell : String) :
    Except PyErr WriteOutcome :=
  if !dataTruthy data then .error (PyErr.dataError "No data provided to write")
  else
    match wbOpen with
    | .error m => .error (PyErr.otherError m)
    | .ok wb =>
      let sheetSel : Except PyErr (Workbook × String) :=
        if sheet_name.getD "" = "" then
          match wb.active with
          | Option.none => .error (PyErr.dataError "No active sheet found in workbook")
          | some title => .ok (wb, title)
        else
          let sname := sheet_name.getD ""
          if sname ∈ wb.sheetnames then .ok (wb, sname)
          else .ok (wb.create_sheet sname, sname)
      match sheetSel with
      | .error e => .error e
      | .ok (wb2, sname) =>
        let ws := wb2.getSheet sname
        match parse_cell_range start_cell with
        | Option.none =>
          .error (PyErr.dataError ("Invalid start cell reference: " ++ start_cell))
        | some _ =>
          let rows := data.getD []
          if rows.length > 0 then
            match _write_data_to_worksheet ws rows start_cell with
            | .error e => .error e
            | .ok ws2 =>
              .ok ⟨"Data written to " ++ sname, sname, wb2.setSheet sname ws2⟩
          else
            .ok ⟨"Data written to " ++ sname, sname, wb2⟩

/-- Lines 159-206 of data.py: `write_data` — the body wrapped by the
operation-boundary `try/except`. -/
def write_data (wbOpen : Except String Workbook) (sheet_name : Option String)
    (data : Option (List (List PyVal))) (start_cell : String) :
    Except PyErr WriteOutcome :=
  wrapDataError (write_data_body wbOpen sheet_name data start_cell)

/-- The value produced by the evaluator tier alone: the token loop when an
evaluator exists, nothing otherwise. -/
def evalChainOpt (evaluator : Option (String → EvalOutcome))
    (sheet_name cell_address : String) : Option PyVal :=
  match evaluator with
  | some ev => evalLoop ev (formulaTokens sheet_name cell_address)
  | Option.none => Option.none

/-- The cached value the values-only workbook holds for a coordinate. -/
def cachedValueOf (wbv : Workbook) (sheet_name : String) (r c : Nat) : PyVal :=
  ((wbv.getSheet sheet_name).cell r c).value

/-- The value the metadata read reports for one cell, as a pure function of
the cell, the evaluator, and the values-only workbook — assuming the
values-only workbook opens and contains the target sheet. -/
def metaPureValue (formula_evaluator : Option (String → EvalOutcome)) (wbv : Workbook)
    (sheet_name : String) (evaluate_formulas : Bool) (ws : Worksheet) (r c : Nat) :
    PyVal :=
  let cell := ws.cell r c
  let cell_address := get_column_letter c ++ toString r
  match formulaTextOf cell with
  | some ftext =>
    if evaluate_formulas then
      match evalChainOpt formula_evaluator sheet_name cell_address with
      | some v => v
      | Option.none =>
        if cachedValueOf wbv sheet_name r c = PyVal.none then PyVal.str ftext
        else cachedValueOf wbv sheet_name r c
    else cell.value
  | Option.none =>
    if evaluate_formulas ∧ formula_evaluator.isNone then
      if cachedValueOf wbv sheet_name r c = PyVal.none then cell.value
      else cachedValueOf wbv sheet_name r c
    else cell.value

/-- The cell record the metadata read produces for one coordinate, as a
pure function — same assumption as `metaPureValue`. -/
def metaPureRecord (formula_evaluator : Option (String → EvalOutcome)) (wbv : Workbook)
    (sheet_name : String) (evaluate_formulas include_validation : Bool)
    (getv : Worksheet → String → Option String) (ws : Worksheet) (rc : Nat × Nat) :
    CellData :=
  ⟨get_column_letter rc.snd ++ toString rc.fst,
   metaPureValue formula_evaluator wbv sheet_name evaluate_formulas ws rc.fst rc.snd,
   rc.fst, rc.snd,
   if include_validation then
     match getv ws (get_column_letter rc.snd ++ toString rc.fst) with
     | some vinfo => ValidationField.info vinfo
     | Option.none => ValidationField.noValidation
   else ValidationField.absent⟩

/-- Invariant of the fallback loader state when the values-only workbook
opens successfully and contains the target sheet: the loader has not
failed, and once open it holds exactly that workbook and sheet. -/
def FbGood (wbv : Workbook) (sheet_name : String) (st : FbState) : Prop :=
  st.failed = false ∧
  (st.wbValues = Option.none ∨
   (st.wbValues = some wbv ∧ st.wsValues = some (wbv.getSheet sheet_name)))

theorem fbInit_good (wbv : Workbook) (sheet_name : String) :
    FbGood wbv sheet_name fbInit := ⟨rfl, Or.inl rfl⟩

theorem get_cached_good (wbv : Workbook) (sheet_name : String)
    (hs : sheet_name ∈ wbv.sheetnames) (r c : Nat) (st : FbState)
    (h : FbGood wbv sheet_name st) :
    (_get_cached_value (.ok wbv) sheet_name r c st).snd =
      cachedValueOf wbv sheet_name r c ∧
    FbGood wbv sheet_name (_get_cached_value (.ok wbv) sheet_name r c st).fst := by
  obtain ⟨hf, hw⟩ := h
  unfold _get_cached_value
  rw [hf]
  simp only [Bool.false_eq_true, if_false]
  rcases hw with hw | ⟨hw, hws⟩
  · rw [hw]
    simp only [if_pos hs]
    exact ⟨rfl, rfl, Or.inr ⟨rfl, rfl⟩⟩
  · rw [hw, hws]
    exact ⟨rfl, hf, Or.inr ⟨hw, hws⟩⟩

theorem eval_cell_good (fe : Option (String → EvalOutcome)) (wbv : Workbook)
    (sheet_name : String) (hs : sheet_name ∈ wbv.sheetnames)
    (cell_address : String) (r c : Nat) (dflt : PyVal) (st : FbState)
    (h : FbGood wbv sheet_name st) :
    (_evaluate_formula_cell fe sheet_name cell_address r c
        (some (fun row col s => _get_cached_value (.ok wbv) sheet_name row col s))
        dflt st).fst =
      (match evalChainOpt fe sheet_name cell_address with
       | some v => v
       | Option.none =>
         if cachedValueOf wbv sheet_name r c = PyVal.none then dflt
         else cachedValueOf wbv sheet_name r c) ∧
    FbGood wbv sheet_name
      (_evaluate_formula_cell fe sheet_name cell_address r c
        (some (fun row col s => _get_cached_value (.ok wbv) sheet_name row col s))
        dflt st).snd := by
  obtain ⟨hv, hg⟩ := get_cached_good wbv sheet_name hs r c st h
  cases fe with
  | none =>
    simp only [_evaluate_formula_cell, evalChainOpt]
    rw [hv]
    by_cases hc : cachedValueOf wbv sheet_name r c = PyVal.none
    · simp only [if_pos hc]
      exact ⟨trivial, hg⟩
    · simp only [if_neg hc]
      exact ⟨trivial, hg⟩
  | some ev =>
    simp only [_evaluate_formula_cell, evalChainOpt]
    cases hl : evalLoop ev (formulaTokens sheet_name cell_address) with
    | some v =>
      simp only [hl]
      exact ⟨trivial, h⟩
    | none =>
      simp only [hl]
      rw [hv]
      by_cases hc : cachedValueOf wbv sheet_name r c = PyVal.none
      · simp only [if_pos hc]
        exact ⟨trivial, hg⟩
      · simp only [if_neg hc]
        exact ⟨trivial, hg⟩

theorem step_good (xlcalc : Option (String → EvalOutcome)) (wbv : Workbook)
    (ws : Worksheet) (sheet_name : String) (hs : sheet_name ∈ wbv.sheetnames)
    (evaluate_formulas include_validation : Bool)
    (getv : Worksheet → String → Option String)
    (cells : List CellData) (st : FbState) (rc : Nat × Nat)
    (h : FbGood wbv sheet_name st) :
    ∃ st2,
      metaCellStep ws sheet_name (if evaluate_formulas then xlcalc else Option.none)
        (if evaluate_formulas then
           some (fun row col s => _get_cached_value (.ok wbv) sheet_name row col s)
         else Option.none)
        evaluate_formulas include_validation getv (cells, st) rc =
        (cells ++ [metaPureRecord (if evaluate_formulas then xlcalc else Option.none)
          wbv sheet_name evaluate_formulas include_validation getv ws rc], st2) ∧
      FbGood wbv sheet_name st2 := by
  obtain ⟨r, c⟩ := rc
  cases evaluate_formulas with
  | false =>
    refine ⟨st, ?_, h⟩
    cases hft : formulaTextOf (ws.cell r c) with
    | some ftext => simp [metaCellStep, metaPureRecord, metaPureValue, hft]
    | none => simp [metaCellStep, metaPureRecord, metaPureValue, hft]
  | true =>
    cases hft : formulaTextOf (ws.cell r c) with
    | some ftext =>
      obtain ⟨hval, hgood⟩ := eval_cell_good xlcalc wbv sheet_name hs
        (get_column_letter c ++ toString r) r c (PyVal.str ftext) st h
      refine ⟨_, ?_, hgood⟩
      simp [metaCellStep, metaPureRecord, metaPureValue, hft, hval]
    | none =>
      cases xlcalc with
      | none =>
        obtain ⟨hv, hg⟩ := get_cached_good wbv sheet_name hs r c st h
        refine ⟨_, ?_, hg⟩
        by_cases hc : cachedValueOf wbv sheet_name r c = PyVal.none
        · simp [metaCellStep, metaPureRecord, metaPureValue, hft, hv, hc]
        · simp [metaCellStep, metaPureRecord, metaPureValue, hft, hv, hc]
      | some ev =>
        refine ⟨st, ?_, h⟩
        simp [metaCellStep, metaPureRecord, metaPureValue, hft]

theorem fold_good (xlcalc : Option (String → EvalOutcome)) (wbv : Workbook)
    (ws : Worksheet) (sheet_name : String) (hs : sheet_name ∈ wbv.sheetnames)
    (evaluate_formulas include_validation : Bool)
    (getv : Worksheet → String → Option String) :
    ∀ (coords : List (Nat × Nat)) (cells : List CellData) (st : FbState),
      FbGood wbv sheet_name st →
      ∃ st2,
        coords.foldl
          (metaCellStep ws sheet_name (if evaluate_formulas then xlcalc else Option.none)
            (if evaluate_formulas then
               some (fun row col s => _get_cached_value (.ok wbv) sheet_name row col s)
             else Option.none)
            evaluate_formulas include_validation getv) (cells, st) =
          (cells ++ coords.map (metaPureRecord
            (if evaluate_formulas then xlcalc else Option.none) wbv sheet_name
            evaluate_formulas include_validation getv ws), st2) ∧
        FbGood wbv sheet_name st2 := by
  intro coords
  induction coords with
  | nil => intro cells st h; exact ⟨st, by simp, h⟩
  | cons rc rest ih =>
    intro cells st h
    obtain ⟨st1, hstep, hg1⟩ := step_good xlcalc wbv ws sheet_name hs
      evaluate_formulas include_validation getv cells st rc h
    obtain ⟨st2, hfold, hg2⟩ := ih (cells ++ [metaPureRecord
      (if evaluate_formulas then xlcalc else Option.none) wbv sheet_name
      evaluate_formulas include_validation getv ws rc]) st1 hg1
    refine ⟨st2, ?_, hg2⟩
    simp only [List.foldl_cons, hstep, hfold, List.map_cons, List.append_assoc,
      List.singleton_append]

theorem step_appends (ws : Worksheet) (sheet_name : String)
    (fe : Option (String → EvalOutcome))
    (fl : Option (Nat → Nat → FbState → FbState × PyVal))
    (evaluate_formulas include_validation : Bool)
    (getv : Worksheet → String → Option String)
    (acc : List CellData × FbState) (rc : Nat × Nat) :
    ∃ cd st2,
      metaCellStep ws sheet_name fe fl evaluate_formulas include_validation getv acc rc =
        (acc.fst ++ [cd], st2) :=
  ⟨_, _, rfl⟩

theorem fold_length (ws : Worksheet) (sheet_name : String)
    (fe : Option (String → EvalOutcome))
    (fl : Option (Nat → Nat → FbState → FbState × PyVal))
    (evaluate_formulas include_validation : Bool)
    (getv : Worksheet → String → Option String) :
    ∀ (coords : List (Nat × Nat)) (acc : List CellData × FbState),
      ((coords.foldl
        (metaCellStep ws sheet_name fe fl evaluate_formulas include_validation getv)
        acc).fst).length = acc.fst.length + coords.length := by
  intro coords
  induction coords with
  | nil => intro acc; simp
  | cons rc rest ih =>
    intro acc
    obtain ⟨cd, st2, hstep⟩ := step_appends ws sheet_name fe fl
      evaluate_formulas include_validation getv acc rc
    rw [List.foldl_cons, hstep, ih]
    simp
    omega

theorem sum_map_const {α : Type} (l : List α) (m : Nat) :
    (l.map (fun _ => m)).sum = l.length * m := by
  induction l with
  | nil => simp
  | cons a t ih => simp [ih, Nat.succ_mul, Nat.add_comm]

theorem regionCells_length (start_row start_col end_row end_col : Nat) :
    (regionCells start_row start_col end_row end_col).length =
      (end_row + 1 - start_row) * (end_col + 1 - start_col) := by
  simp only [regionCells, List.length_flatMap]
  have hconst : (List.length ∘ fun i =>
      List.map (fun j => (start_row + i, start_col + j))
        (List.range (end_col + 1 - start_col))) =
      fun _ => (end_col + 1 - start_col) := by
    funext i; simp
  rw [hconst, sum_map_const, List.length_range]

theorem regionCells_mem (start_row start_col end_row end_col r c : Nat)
    (h1 : start_row ≤ r) (h2 : r ≤ end_row) (h3 : start_col ≤ c) (h4 : c ≤ end_col) :
    (r, c) ∈ regionCells start_row start_col end_row end_col := by
  simp only [regionCells, List.mem_flatMap, List.mem_map, List.mem_range,
    Prod.mk.injEq]
  refine ⟨r - start_row, by omega, c - start_col, by omega, by omega, by omega⟩

theorem meta_body_ok (wb wbv : Workbook) (xlcalc : Option (String → EvalOutcome))
    (getv : Worksheet → String → Option String) (sheet_name start_cell : String)
    (end_cell : Option String) (include_validation evaluate_formulas : Bool)
    (start_cell1 : String) (sr sc er ec : Nat)
    (hs : sheet_name ∈ wb.sheetnames) (hvs : sheet_name ∈ wbv.sheetnames)
    (hres : metaResolveRegion (wb.getSheet sheet_name) start_cell end_cell =
      .ok (start_cell1, sr, sc, er, ec))
    (hb : ¬(sr > (wb.getSheet sheet_name).max_row ∨
            sc > (wb.getSheet sheet_name).max_column)) :
    (read_excel_range_with_metadata (.ok wb) (.ok wbv) xlcalc getv sheet_name
        start_cell end_cell include_validation evaluate_formulas).fst =
      .ok ⟨get_column_letter sc ++ toString sr ++ ":" ++
             get_column_letter ec ++ toString er,
           sheet_name,
           (regionCells sr sc er ec).map (metaPureRecord
             (if evaluate_formulas then xlcalc else Option.none) wbv sheet_name
             evaluate_formulas include_validation getv (wb.getSheet sheet_name))⟩ := by
  obtain ⟨st2, hfold, _⟩ := fold_good xlcalc wbv (wb.getSheet sheet_name) sheet_name hvs
    evaluate_formulas include_validation getv (regionCells sr sc er ec) [] fbInit
    (fbInit_good wbv sheet_name)
  simp only [read_excel_range_with_metadata, read_excel_range_with_metadata_body,
    if_pos hs, hres, if_neg hb, hfold, wrapDataError, List.nil_append]

theorem plain_body_ok (wb : Workbook) (sheet_name start_cell : String)
    (end_cell : Option String) (preview_only : Bool)
    (start_cell1 : String) (sr sc er ec : Nat)
    (hs : sheet_name ∈ wb.sheetnames)
    (hres : plainResolveRegion (wb.getSheet sheet_name) start_cell end_cell =
      .ok (start_cell1, sr, sc, er, ec))
    (hb : ¬(sr > (wb.getSheet sheet_name).max_row ∨
            sc > (wb.getSheet sheet_name).max_column)) :
    read_excel_range (.ok wb) sheet_name start_cell end_cell preview_only =
      (.ok (plainRegionRows (wb.getSheet sheet_name) sr sc er ec),
       ⟨true, true, false, false, false⟩) := by
  simp only [read_excel_range, read_excel_range_body, if_pos hs, hres, if_neg hb,
    wrapDataError]

/-- A sequence of fallback-loader calls within one request, threading the
closure state; returns the final state and the values returned. -/
def loaderCallSeq (values_open : Except String Workbook) (sheet_name : String) :
    List (Nat × Nat) → FbState → FbState × List PyVal
  | [], st => (st, [])
  | rc :: rest, st =>
    let first := _get_cached_value values_open sheet_name rc.fst rc.snd st
    let next := loaderCallSeq values_open sheet_name rest first.fst
    (next.fst, first.snd :: next.snd)

/-- C8: within one metadata-read request the fallback loader state changes
only by unopened-to-open or unopened-to-failed; a failed state is terminal:
the call returns `None` with the state (hence also the open-attempt
counter) unchanged, and so does every subsequent call of the request. -/
theorem claim_c8_loader_state_machine (values_open : Except String Workbook)
    (sheet_name : String) (r c : Nat) (st : FbState) (calls : List (Nat × Nat)) :
    (st.failed = true →
      _get_cached_value values_open sheet_name r c st = (st, PyVal.none)) ∧
    (st.failed = false → st.wbValues = Option.none →
      (_get_cached_value values_open sheet_name r c st).fst.openAttempts =
        st.openAttempts + 1 ∧
      (((_get_cached_value values_open sheet_name r c st).fst.failed = true ∧
        (_get_cached_value values_open sheet_name r c st).fst.wbValues = Option.none) ∨
       ((_get_cached_value values_open sheet_name r c st).fst.failed = false ∧
        ((_get_cached_value values_open sheet_name r c st).fst.wbValues).isSome = true))) ∧
    (st.failed = false → (st.wbValues).isSome = true →
      (_get_cached_value values_open sheet_name r c st).fst = st) ∧
    (st.failed = true →
      loaderCallSeq values_open sheet_name calls st =
        (st, calls.map (fun _ => PyVal.none))) := by
  refine ⟨?_, ?_, ?_, ?_⟩
  · intro hf
    unfold _get_cached_value
    rw [hf]
    rfl
  · intro hf hw
    unfold _get_cached_value
    rw [hf, hw]
    cases values_open with
    | error m => exact ⟨rfl, Or.inl ⟨rfl, rfl⟩⟩
    | ok wbv =>
      by_cases hmem : sheet_name ∈ wbv.sheetnames
      · simp only [if_pos hmem, Bool.false_eq_true, if_false]
        exact ⟨trivial, Or.inr ⟨trivial, rfl⟩⟩
      · simp only [if_neg hmem, Bool.false_eq_true, if_false]
        exact ⟨trivial, Or.inl ⟨trivial, trivial⟩⟩
  · intro hf hw
    unfold _get_cached_value
    rw [hf]
    cases hwv : st.wbValues with
    | none => rw [hwv] at hw; exact absurd hw (by simp)
    | some wbv =>
      cases hws : st.wsValues with
      | none => rfl
      | some wsv => rfl
  · intro hf
    induction calls with
    | nil => rfl
    | cons rc rest ih =>
      simp only [loaderCallSeq]
      have h1 : _get_cached_value values_open sheet_name rc.fst rc.snd st =
          (st, PyVal.none) := by
        unfold _get_cached_value
        rw [hf]
        rfl
      rw [h1, ih]
      simp

/-- C8 witness: at a concrete failed loader state, one call and a whole
call sequence return null with the state unchanged. -/
theorem claim_c8_witness :
    _get_cached_value (.error "io") "S" 1 1
        ⟨Option.none, Option.none, true, 1, false, false⟩ =
      (⟨Option.none, Option.none, true, 1, false, false⟩, PyVal.none) ∧
    loaderCallSeq (.error "io") "S" [(1, 1), (2, 2)]
        ⟨Option.none, Option.none, true, 1, false, false⟩ =
      (⟨Option.none, Option.none, true, 1, false, false⟩, [PyVal.none, PyVal.none]) :=
  ⟨(claim_c8_loader_state_machine (.error "io") "S" 1 1
      ⟨Option.none, Option.none, true, 1, false, false⟩ [(1, 1), (2, 2)]).1 rfl,
   (claim_c8_loader_state_machine (.error "io") "S" 1 1
      ⟨Option.none, Option.none, true, 1, false, false⟩ [(1, 1), (2, 2)]).2.2.2 rfl⟩

theorem wrapDataError_keeps_data {α : Type} (r : Except PyErr α) (m : String)
    (h : r = .error (PyErr.dataError m)) :
    wrapDataError r = .error (PyErr.dataError m) := by
  rw [h]; rfl

theorem wrapDataError_wraps_other {α : Type} (r : Except PyErr α) (m : String)
    (h : r = .error (PyErr.otherError m)) :
    wrapDataError r = .error (PyErr.dataError m) := by
  rw [h]; rfl

theorem wrapDataError_only_data {α : Type} (r : Except PyErr α) (e : PyErr)
    (h : wrapDataError r = .error e) : ∃ m, e = PyErr.dataError m := by
  cases r with
  | ok v => exact absurd h (by simp [wrapDataError])
  | error err =>
    cases err with
    | dataError m =>
      refine ⟨m, ?_⟩
      simp only [wrapDataError] at h
      exact ((Except.error.injEq _ _).mp h.symm)
    | otherError m =>
      refine ⟨m, ?_⟩
      simp only [wrapDataError] at h
      exact ((Except.error.injEq _ _).mp h.symm)

/-- C9: for each of the three top-level operations, an already-raised
data-access error propagates to the caller unchanged, any other exception
is re-raised as a data-access error with the same message, and every error
the operation raises is a data-access error. -/
theorem claim_c9_error_boundary (wbOpen values_open : Except String Workbook)
    (xlcalc : Option (String → EvalOutcome)) (getv : Worksheet → String → Option String)
    (sheet_name start_cell : String) (end_cell : Option String)
    (preview_only include_validation evaluate_formulas : Bool)
    (wsheet : Option String) (data : Option (List (List PyVal))) :
    ((∀ m, (read_excel_range_body wbOpen sheet_name start_cell end_cell
          preview_only).fst = .error (PyErr.dataError m) →
        (read_excel_range wbOpen sheet_name start_cell end_cell preview_only).fst =
          .error (PyErr.dataError m)) ∧
     (∀ m, (read_excel_range_body wbOpen sheet_name start_cell end_cell
          preview_only).fst = .error (PyErr.otherError m) →
        (read_excel_range wbOpen sheet_name start_cell end_cell preview_only).fst =
          .error (PyErr.dataError m)) ∧
     (∀ e, (read_excel_range wbOpen sheet_name start_cell end_cell
          preview_only).fst = .error e → ∃ m, e = PyErr.dataError m)) ∧
    ((∀ m, (read_excel_range_with_metadata_body wbOpen values_open xlcalc getv
          sheet_name start_cell end_cell include_validation evaluate_formulas).fst =
            .error (PyErr.dataError m) →
        (read_excel_range_with_metadata wbOpen values_open xlcalc getv sheet_name
          start_cell end_cell include_validation evaluate_formulas).fst =
            .error (PyErr.dataError m)) ∧
     (∀ m, (read_excel_range_with_metadata_body wbOpen values_open xlcalc getv
          sheet_name start_cell end_cell include_validation evaluate_formulas).fst =
            .error (PyErr.otherError m) →
        (read_excel_range_with_metadata wbOpen values_open xlcalc getv sheet_name
          start_cell end_cell include_validation evaluate_formulas).fst =
            .error (PyErr.dataError m)) ∧
     (∀ e, (read_excel_range_with_metadata wbOpen values_open xlcalc getv sheet_name
          start_cell end_cell include_validation evaluate_formulas).fst = .error e →
        ∃ m, e = PyErr.dataError m)) ∧
    ((∀ m, write_data_body wbOpen wsheet data start_cell =
          .error (PyErr.dataError m) →
        write_data wbOpen wsheet data start_cell = .error (PyErr.dataError m)) ∧
     (∀ m, write_data_body wbOpen wsheet data start_cell =
          .error (PyErr.otherError m) →
        write_data wbOpen wsheet data start_cell = .error (PyErr.dataError m)) ∧
     (∀ e, write_data wbOpen wsheet data start_cell = .error e →
        ∃ m, e = PyErr.dataError m)) := by
  refine ⟨⟨?_, ?_, ?_⟩, ⟨?_, ?_, ?_⟩, ⟨?_, ?_, ?_⟩⟩
  · intro m h; exact wrapDataError_keeps_data _ m h
  · intro m h; exact wrapDataError_wraps_other _ m h
  · intro e h; exact wrapDataError_only_data _ e h
  · intro m h; exact wrapDataError_keeps_data _ m h
  · intro m h; exact wrapDataError_wraps_other _ m h
  · intro e h; exact wrapDataError_only_data _ e h
  · intro m h; exact wrapDataError_keeps_data _ m h
  · intro m h; exact wrapDataError_wraps_other _ m h
  · intro e h; exact wrapDataError_only_data _ e h

/-- C9 witness: a failed primary open propagates as a data-access error
carrying the original message, in all three operations; a missing sheet
raises a data-access error that is not wrapped a second time. -/
theorem claim_c9_witness :
    (read_excel_range (.error "boom") "S" "A1" Option.none false).fst =
      .error (PyErr.dataError "boom") ∧
    (read_excel_range_with_metadata (.error "boom") (.error "io") Option.none
        (fun _ _ => Option.none) "S" "A1" Option.none false false).fst =
      .error (PyErr.dataError "boom") ∧
    write_data (.error "boom") (some "S") (some [[PyVal.int 1]]) "A1" =
      .error (PyErr.dataError "boom") :=
  ⟨(claim_c9_error_boundary (.error "boom") (.error "io") Option.none
      (fun _ _ => Option.none) "S" "A1" Option.none false false false
      (some "S") (some [[PyVal.int 1]])).1.2.1 "boom" rfl,
   (claim_c9_error_boundary (.error "boom") (.error "io") Option.none
      (fun _ _ => Option.none) "S" "A1" Option.none false false false
      (some "S") (some [[PyVal.int 1]])).2.1.2.1 "boom" rfl,
   (claim_c9_error_boundary (.error "boom") (.error "io") Option.none
      (fun _ _ => Option.none) "S" "A1" Option.none false false false
      (some "S") (some [[PyVal.int 1]])).2.2.2.1 "boom" rfl⟩

/-- C4: in either read mode, a resolved start beyond the sheet's maximum
row or column yields an empty successful result (empty row list resp.
empty cells list), with the warning flag set and no error raised. -/
theorem claim_c4_soft_empty (wb : Workbook) (values_open : Except String Workbook)
    (xlcalc : Option (String → EvalOutcome)) (getv : Worksheet → String → Option String)
    (sheet_name start_cell : String) (end_cell : Option String)
    (preview_only include_validation evaluate_formulas : Bool)
    (sP : String) (srP scP erP ecP : Nat) (sM : String) (srM scM erM ecM : Nat)
    (hs : sheet_name ∈ wb.sheetnames) :
    (plainResolveRegion (wb.getSheet sheet_name) start_cell end_cell =
        .ok (sP, srP, scP, erP, ecP) →
      (srP > (wb.getSheet sheet_name).max_row ∨
       scP > (wb.getSheet sheet_name).max_column) →
      read_excel_range (.ok wb) sheet_name start_cell end_cell preview_only =
        (.ok [], ⟨true, false, false, false, true⟩)) ∧
    (metaResolveRegion (wb.getSheet sheet_name) start_cell end_cell =
        .ok (sM, srM, scM, erM, ecM) →
      (srM > (wb.getSheet sheet_name).max_row ∨
       scM > (wb.getSheet sheet_name).max_column) →
      read_excel_range_with_metadata (.ok wb) values_open xlcalc getv sheet_name
          start_cell end_cell include_validation evaluate_formulas =
        (.ok ⟨sM ++ ":", sheet_name, []⟩, ⟨true, false, false, false, true⟩)) := by
  constructor
  · intro hres hoob
    simp only [read_excel_range, read_excel_range_body, if_pos hs, hres, if_pos hoob,
      wrapDataError]
  · intro hres hoob
    simp only [read_excel_range_with_metadata, read_excel_range_with_metadata_body,
      if_pos hs, hres, if_pos hoob, wrapDataError]

/-- C4 witness: a start of "B5" with end "B5" on a one-cell sheet is beyond
the data boundary; both modes return empty with a logged warning. -/
theorem claim_c4_witness :
    read_excel_range
        (.ok ⟨[("S", ⟨[((1, 1), ⟨PyVal.int 5, false⟩)]⟩)], some "S"⟩)
        "S" "B5" (some "B5") false =
      (.ok [], ⟨true, false, false, false, true⟩) ∧
    read_excel_range_with_metadata
        (.ok ⟨[("S", ⟨[((1, 1), ⟨PyVal.int 5, false⟩)]⟩)], some "S"⟩)
        (.error "io") Option.none (fun _ _ => Option.none)
        "S" "B5" (some "B5") false false =
      (.ok ⟨"B5:", "S", []⟩, ⟨true, false, false, false, true⟩) :=
  ⟨(claim_c4_soft_empty ⟨[("S", ⟨[((1, 1), ⟨PyVal.int 5, false⟩)]⟩)], some "S"⟩
      (.error "io") Option.none (fun _ _ => Option.none) "S" "B5" (some "B5")
      false false false "B5" 5 2 5 2 "B5" 5 2 5 2 (by decide)).1 rfl
      (Or.inl (by decide)),
   (claim_c4_soft_empty ⟨[("S", ⟨[((1, 1), ⟨PyVal.int 5, false⟩)]⟩)], some "S"⟩
      (.error "io") Option.none (fun _ _ => Option.none) "S" "B5" (some "B5")
      false false false "B5" 5 2 5 2 "B5" 5 2 5 2 (by decide)).2 rfl
      (Or.inl (by decide))⟩

theorem toList_append (a b : String) : (a ++ b).toList = a.toList ++ b.toList := by
  cases a
  cases b
  rfl

theorem splitColon_ne_nil : ∀ l : List Char, splitColon l ≠ [] := by
  intro l
  cases l with
  | nil => simp [splitColon]
  | cons ch rest =>
    simp only [splitColon]
    cases h : splitColon rest with
    | nil => simp
    | cons g gs =>
      by_cases hc : ch = ':'
      · simp [if_pos hc]
      · simp [if_neg hc]

theorem splitColon_no_colon : ∀ l : List Char,
    l.any (fun ch => ch == ':') = false → splitColon l = [l] := by
  intro l
  induction l with
  | nil => intro _; rfl
  | cons ch rest ih =>
    intro h
    simp only [List.any_cons, Bool.or_eq_false_iff] at h
    have hc : ch ≠ ':' := by
      intro he
      rw [he] at h
      simp at h
    simp only [splitColon, ih h.2, if_neg hc]

theorem splitColon_append : ∀ (a b : List Char),
    a.any (fun ch => ch == ':') = false →
    splitColon (a ++ ':' :: b) = a :: splitColon b := by
  intro a
  induction a with
  | nil =>
    intro b _
    simp only [List.nil_append, splitColon]
    cases h : splitColon b with
    | nil => exact absurd h (splitColon_ne_nil b)
    | cons g gs => simp
  | cons ch a2 ih =>
    intro b h
    simp only [List.any_cons, Bool.or_eq_false_iff] at h
    have hc : ch ≠ ':' := by
      intro he
      rw [he] at h
      simp at h
    simp only [List.cons_append, splitColon, List.append_eq, ih b h.2, if_neg hc]

theorem parse_range_roundtrip (s : String) (r c : Nat)
    (hnc : s.toList.any (fun ch => ch == ':') = false)
    (hp : parseCellRefL s.toList = some (r, c)) :
    parse_cell_range (s ++ ":" ++ s) = some ((r, c), some (r, c)) := by
  have htl : (s ++ ":" ++ s).toList = s.toList ++ ':' :: s.toList := by
    rw [toList_append, toList_append]
    simp
  unfold parse_cell_range
  rw [htl, splitColon_append s.toList s.toList hnc, splitColon_no_colon s.toList hnc]
  simp only [joinColon, hp]

/-- C5: with no end reference on a non-empty sheet, the plain read's
resolution replaces the start by the sheet minimum and the end by the sheet
maximum unconditionally, while the metadata read's resolution widens only
the end and snaps the start to the sheet minimum exactly when the supplied
start string is the default "A1", keeping any other start unchanged. -/
theorem claim_c5_bound_widening (ws : Worksheet) (start_cell : String) (r c : Nat)
    (hnc : start_cell.toList.any (fun ch => ch == ':') = false)
    (hp : parseCellRefL start_cell.toList = some (r, c))
    (hne : ¬(ws.max_row = 1 ∧ ws.max_column = 1 ∧ (ws.cell 1 1).value = PyVal.none)) :
    plainResolveRegion ws start_cell Option.none =
      .ok (start_cell, ws.min_row, ws.min_column, ws.max_row, ws.max_column) ∧
    metaResolveRegion ws start_cell Option.none =
      .ok (start_cell, (if start_cell = "A1" then ws.min_row else r),
           (if start_cell = "A1" then ws.min_column else c),
           ws.max_row, ws.max_column) := by
  have hsplit : splitStartCell start_cell Option.none = .ok (start_cell, Option.none) := by
    unfold splitStartCell
    rw [hnc]
    rfl
  have hparse := parse_range_roundtrip start_cell r c hnc hp
  constructor
  · unfold plainResolveRegion
    rw [hsplit]
    simp only [hparse, endTruthy, Bool.false_eq_true, if_false, if_neg hne]
  · unfold metaResolveRegion
    rw [hsplit]
    simp only [hparse, endTruthy, Bool.false_eq_true, if_false, if_neg hne]
    by_cases ha : start_cell = "A1"
    · simp only [if_pos ha]
    · simp only [if_neg ha]

/-- C5 witness: on a sheet whose data starts at row 3, column 2, a start of
"B1" with no end widens to the sheet bounds in plain mode but keeps the
metadata-mode start at (1, 2) since "B1" is not the default "A1". -/
theorem claim_c5_witness :
    plainResolveRegion ⟨[((3, 2), ⟨PyVal.int 9, false⟩)]⟩ "B1" Option.none =
      .ok ("B1", 3, 2, 3, 2) ∧
    metaResolveRegion ⟨[((3, 2), ⟨PyVal.int 9, false⟩)]⟩ "B1" Option.none =
      .ok ("B1", 1, 2, 3, 2) :=
  claim_c5_bound_widening ⟨[((3, 2), ⟨PyVal.int 9, false⟩)]⟩ "B1" 1 2
    (by decide) (by decide) (by decide)

/-- C3 counterexample: on an empty sheet ("Sheet1" with no allocated cells)
the metadata read with default start "A1" and no end returns a result whose
cells list is NOT empty — it holds exactly one record, for the sole empty
cell A1 — contradicting the claimed empty cells list. -/
theorem claim_c3_counterexample :
    ∃ res, (read_excel_range_with_metadata
        (.ok ⟨[("Sheet1", ⟨[]⟩)], some "Sheet1"⟩) (.error "io") Option.none
        (fun _ _ => Option.none) "Sheet1" "A1" Option.none false false).fst =
      .ok res ∧ res.range = "A1:A1" ∧ ¬(res.cells = []) ∧ res.cells.length = 1 :=
  ⟨⟨"A1:A1", "Sheet1", [⟨"A1", PyVal.none, 1, 1, ValidationField.absent⟩]⟩,
   by rfl, rfl, by simp, rfl⟩

/-- C3 amended: for an empty sheet, a read with default start "A1" and no
end returns the empty row sequence in plain mode; in metadata mode (without
formula evaluation) it returns range "A1:A1" denoting the sole empty cell
together with exactly one cell record for that empty cell (address "A1",
value null, row 1, column 1) — not an empty cells list. -/
theorem claim_c3_empty_sheet (wb : Workbook) (values_open : Except String Workbook)
    (xlcalc : Option (String → EvalOutcome)) (getv : Worksheet → String → Option String)
    (sheet_name : String) (preview_only include_validation : Bool)
    (hs : sheet_name ∈ wb.sheetnames) (hws : wb.getSheet sheet_name = ⟨[]⟩) :
    read_excel_range (.ok wb) sheet_name "A1" Option.none preview_only =
      (.ok [], ⟨true, true, false, false, false⟩) ∧
    (read_excel_range_with_metadata (.ok wb) values_open xlcalc getv sheet_name
        "A1" Option.none include_validation false).fst =
      .ok ⟨"A1:A1", sheet_name,
        [⟨"A1", PyVal.none, 1, 1,
          if include_validation then
            match getv ⟨[]⟩ "A1" with
            | some vinfo => ValidationField.info vinfo
            | Option.none => ValidationField.noValidation
          else ValidationField.absent⟩]⟩ := by
  constructor
  · have hres : plainResolveRegion (⟨[]⟩ : Worksheet) "A1" Option.none =
        .ok ("A1", 1, 1, 1, 1) := rfl
    simp only [read_excel_range, read_excel_range_body, if_pos hs, hws, hres,
      wrapDataError]
    rfl
  · have hres : metaResolveRegion (⟨[]⟩ : Worksheet) "A1" Option.none =
        .ok ("A1", 1, 1, 1, 1) := rfl
    simp only [read_excel_range_with_metadata, read_excel_range_with_metadata_body,
      if_pos hs, hws, hres, wrapDataError]
    rfl

/-- C3 amended witness: the concrete single-sheet empty workbook. -/
theorem claim_c3_witness :
    read_excel_range (.ok ⟨[("Sheet1", ⟨[]⟩)], some "Sheet1"⟩) "Sheet1" "A1"
        Option.none false =
      (.ok [], ⟨true, true, false, false, false⟩) ∧
    (read_excel_range_with_metadata (.ok ⟨[("Sheet1", ⟨[]⟩)], some "Sheet1"⟩)
        (.error "io") Option.none (fun _ _ => Option.none) "Sheet1" "A1"
        Option.none true false).fst =
      .ok ⟨"A1:A1", "Sheet1",
        [⟨"A1", PyVal.none, 1, 1, ValidationField.noValidation⟩]⟩ := by
  have h := claim_c3_empty_sheet ⟨[("Sheet1", ⟨[]⟩)], some "Sheet1"⟩ (.error "io")
    Option.none (fun _ _ => Option.none) "Sheet1" false true (by decide) rfl
  exact h

/-- C2 counterexample: on the soft-empty early return (start "B5" beyond a
one-cell sheet) the metadata read returns successfully with the primary
workbook handle opened but not closed, so not every exit path closes every
opened handle. -/
theorem claim_c2_counterexample :
    ∃ res, read_excel_range_with_metadata
        (.ok ⟨[("S", ⟨[((1, 1), ⟨PyVal.int 5, false⟩)]⟩)], some "S"⟩)
        (.error "io") Option.none (fun _ _ => Option.none)
        "S" "B5" (some "B5") false false =
      (.ok res, ⟨true, false, false, false, true⟩) ∧
      ¬((true : Bool) = true → (false : Bool) = true) :=
  ⟨⟨"B5:", "S", []⟩, rfl, by simp⟩

/-- The closing invariant of the fallback loader state: once the values
handle has been opened, it is either already closed again (missing-sheet
case) or still held open in the state (to be closed at request end). -/
def FbClosedInv (st : FbState) : Prop :=
  st.vOpened = true → (st.vClosed = true ∨ (st.wbValues).isSome = true)

theorem get_cached_closedInv (values_open : Except String Workbook)
    (sheet_name : String) (r c : Nat) (st : FbState) (h : FbClosedInv st) :
    FbClosedInv (_get_cached_value values_open sheet_name r c st).fst := by
  unfold _get_cached_value
  by_cases hf : st.failed = true
  · rw [if_pos hf]; exact h
  · rw [if_neg hf]
    cases hwv : st.wbValues with
    | none =>
      cases values_open with
      | error m =>
        intro hop
        rcases h hop with hc | hsome
        · exact Or.inl hc
        · rw [hwv] at hsome; exact absurd hsome (by simp)
      | ok wbv =>
        by_cases hmem : sheet_name ∈ wbv.sheetnames
        · simp only [if_pos hmem]
          intro _
          exact Or.inr rfl
        · simp only [if_neg hmem]
          intro _
          exact Or.inl rfl
    | some wbv =>
      cases hws : st.wsValues with
      | none => exact h
      | some wsv => exact h

theorem eval_cell_closedInv (fe : Option (String → EvalOutcome))
    (values_open : Except String Workbook) (sheet_name cell_address : String)
    (r c : Nat) (dflt : PyVal) (st : FbState) (h : FbClosedInv st) :
    FbClosedInv (_evaluate_formula_cell fe sheet_name cell_address r c
      (some (fun row col s => _get_cached_value values_open sheet_name row col s))
      dflt st).snd := by
  unfold _evaluate_formula_cell
  cases hc : (match fe with
    | some ev => evalLoop ev (formulaTokens sheet_name cell_address)
    | Option.none => Option.none : Option PyVal) with
  | some v => simp only [hc]; exact h
  | none =>
    simp only [hc]
    have hinv := get_cached_closedInv values_open sheet_name r c st h
    by_cases hz : (_get_cached_value values_open sheet_name r c st).snd = PyVal.none
    · simp only [if_pos hz]; exact hinv
    · simp only [if_neg hz]; exact hinv

theorem step_closedInv (ws : Worksheet) (sheet_name : String)
    (fe : Option (String → EvalOutcome)) (values_open : Except String Workbook)
    (evaluate_formulas include_validation : Bool)
    (getv : Worksheet → String → Option String)
    (acc : List CellData × FbState) (rc : Nat × Nat) (h : FbClosedInv acc.snd) :
    FbClosedInv ((metaCellStep ws sheet_name fe
      (if evaluate_formulas then
         some (fun row col s => _get_cached_value values_open sheet_name row col s)
       else Option.none)
      evaluate_formulas include_validation getv acc rc)).snd := by
  obtain ⟨cells, st⟩ := acc
  obtain ⟨r, c⟩ := rc
  cases evaluate_formulas with
  | false =>
    cases hft : formulaTextOf (ws.cell r c) with
    | some ftext => simp only [metaCellStep, hft]; simpa using h
    | none => simp only [metaCellStep, hft]; simpa using h
  | true =>
    cases hft : formulaTextOf (ws.cell r c) with
    | some ftext =>
      simp only [metaCellStep, hft, if_pos rfl, if_true]
      exact eval_cell_closedInv fe values_open sheet_name
        (get_column_letter c ++ toString r) r c (PyVal.str ftext) st h
    | none =>
      simp only [metaCellStep, hft]
      cases fe with
      | none =>
        have hinv := get_cached_closedInv values_open sheet_name r c st h
        by_cases hz : (_get_cached_value values_open sheet_name r c st).snd = PyVal.none
        · simpa [hz] using hinv
        · simpa [hz] using hinv
      | some ev => simpa using h

theorem fold_closedInv (ws : Worksheet) (sheet_name : String)
    (fe : Option (String → EvalOutcome)) (values_open : Except String Workbook)
    (evaluate_formulas include_validation : Bool)
    (getv : Worksheet → String → Option String) :
    ∀ (coords : List (Nat × Nat)) (acc : List CellData × FbState),
      FbClosedInv acc.snd →
      FbClosedInv ((coords.foldl (metaCellStep ws sheet_name fe
        (if evaluate_formulas then
           some (fun row col s => _get_cached_value values_open sheet_name row col s)
         else Option.none)
        evaluate_formulas include_validation getv) acc)).snd := by
  intro coords
  induction coords with
  | nil => intro acc h; exact h
  | cons rc rest ih =>
    intro acc h
    rw [List.foldl_cons]
    exact ih _ (step_closedInv ws sheet_name fe values_open evaluate_formulas
      include_validation getv acc rc h)

theorem fbInit_closedInv : FbClosedInv fbInit := by
  intro h
  exact absurd h (by simp [fbInit])

/-- C2 amended: the metadata read closes its handles only on the normal
completed-read return: there the primary handle and any still-open values
handle are closed (a values handle whose sheet lookup failed was already
closed inside the loader); on the soft-empty early return and on every
error exit the primary handle is opened but not closed. -/
theorem claim_c2_resource_release (wbOpen values_open : Except String Workbook)
    (xlcalc : Option (String → EvalOutcome)) (getv : Worksheet → String → Option String)
    (sheet_name start_cell : String) (end_cell : Option String)
    (include_validation evaluate_formulas : Bool) :
    (∀ res, (read_excel_range_with_metadata wbOpen values_open xlcalc getv sheet_name
        start_cell end_cell include_validation evaluate_formulas).fst = .ok res →
      (read_excel_range_with_metadata wbOpen values_open xlcalc getv sheet_name
        start_cell end_cell include_validation evaluate_formulas).snd.warned = false →
      (read_excel_range_with_metadata wbOpen values_open xlcalc getv sheet_name
        start_cell end_cell include_validation evaluate_formulas).snd.wbOpened = true ∧
      (read_excel_range_with_metadata wbOpen values_open xlcalc getv sheet_name
        start_cell end_cell include_validation evaluate_formulas).snd.wbClosed = true ∧
      ((read_excel_range_with_metadata wbOpen values_open xlcalc getv sheet_name
        start_cell end_cell include_validation evaluate_formulas).snd.wbvOpened = true →
       (read_excel_range_with_metadata wbOpen values_open xlcalc getv sheet_name
        start_cell end_cell include_validation evaluate_formulas).snd.wbvClosed = true)) ∧
    (∀ res, (read_excel_range_with_metadata wbOpen values_open xlcalc getv sheet_name
        start_cell end_cell include_validation evaluate_formulas).fst = .ok res →
      (read_excel_range_with_metadata wbOpen values_open xlcalc getv sheet_name
        start_cell end_cell include_validation evaluate_formulas).snd.warned = true →
      (read_excel_range_with_metadata wbOpen values_open xlcalc getv sheet_name
        start_cell end_cell include_validation evaluate_formulas).snd.wbOpened = true ∧
      (read_excel_range_with_metadata wbOpen values_open xlcalc getv sheet_name
        start_cell end_cell include_validation evaluate_formulas).snd.wbClosed = false) ∧
    (∀ e, (read_excel_range_with_metadata wbOpen values_open xlcalc getv sheet_name
        start_cell end_cell include_validation evaluate_formulas).fst = .error e →
      (read_excel_range_with_metadata wbOpen values_open xlcalc getv sheet_name
        start_cell end_cell include_validation evaluate_formulas).snd.wbClosed = false) := by
  cases wbOpen with
  | error m =>
    refine ⟨?_, ?_, ?_⟩
    · intro res h
      exact absurd h (by simp [read_excel_range_with_metadata,
        read_excel_range_with_metadata_body, wrapDataError])
    · intro res h
      exact absurd h (by simp [read_excel_range_with_metadata,
        read_excel_range_with_metadata_body, wrapDataError])
    · intro e _
      rfl
  | ok wb =>
    by_cases hs : sheet_name ∈ wb.sheetnames
    · cases hres : metaResolveRegion (wb.getSheet sheet_name) start_cell end_cell with
      | error e0 =>
        refine ⟨?_, ?_, ?_⟩
        · intro res h
          refine absurd h ?_
          simp only [read_excel_range_with_metadata,
            read_excel_range_with_metadata_body, if_pos hs, hres]
          cases e0 with
          | dataError m => simp [wrapDataError]
          | otherError m => simp [wrapDataError]
        · intro res h
          refine absurd h ?_
          simp only [read_excel_range_with_metadata,
            read_excel_range_with_metadata_body, if_pos hs, hres]
          cases e0 with
          | dataError m => simp [wrapDataError]
          | otherError m => simp [wrapDataError]
        · intro e _
          simp only [read_excel_range_with_metadata,
            read_excel_range_with_metadata_body, if_pos hs, hres]
      | ok reg =>
        obtain ⟨s1, sr, sc, er, ec⟩ := reg
        by_cases hb : sr > (wb.getSheet sheet_name).max_row ∨
            sc > (wb.getSheet sheet_name).max_column
        · refine ⟨?_, ?_, ?_⟩
          · intro res _ hw
            refine absurd hw ?_
            simp [read_excel_range_with_metadata,
              read_excel_range_with_metadata_body, if_pos hs, hres, if_pos hb]
          · intro res _ _
            constructor
            · simp [read_excel_range_with_metadata,
                read_excel_range_with_metadata_body, if_pos hs, hres, if_pos hb]
            · simp [read_excel_range_with_metadata,
                read_excel_range_with_metadata_body, if_pos hs, hres, if_pos hb]
          · intro e h
            refine absurd h ?_
            simp [read_excel_range_with_metadata,
              read_excel_range_with_metadata_body, if_pos hs, hres, if_pos hb,
              wrapDataError]
        · have hinv := fold_closedInv (wb.getSheet sheet_name) sheet_name
            (if evaluate_formulas then xlcalc else Option.none) values_open
            evaluate_formulas include_validation getv
            (regionCells sr sc er ec) ([], fbInit) fbInit_closedInv
          refine ⟨?_, ?_, ?_⟩
          · intro res _ _
            refine ⟨?_, ?_, ?_⟩
            · simp [read_excel_range_with_metadata,
                read_excel_range_with_metadata_body, if_pos hs, hres, if_neg hb]
            · simp [read_excel_range_with_metadata,
                read_excel_range_with_metadata_body, if_pos hs, hres, if_neg hb]
            · intro hop
              simp only [read_excel_range_with_metadata,
                read_excel_range_with_metadata_body, if_pos hs, hres,
                if_neg hb] at hop ⊢
              rcases hinv hop with hcl | hsome
              · simp [hcl]
              · simp [hsome]
          · intro res _ hw
            refine absurd hw ?_
            simp [read_excel_range_with_metadata,
              read_excel_range_with_metadata_body, if_pos hs, hres, if_neg hb]
          · intro e h
            refine absurd h ?_
            simp [read_excel_range_with_metadata,
              read_excel_range_with_metadata_body, if_pos hs, hres, if_neg hb,
              wrapDataError]
    · refine ⟨?_, ?_, ?_⟩
      · intro res h
        refine absurd h ?_
        simp [read_excel_range_with_metadata, read_excel_range_with_metadata_body,
          if_neg hs, wrapDataError]
      · intro res h
        refine absurd h ?_
        simp [read_excel_range_with_metadata, read_excel_range_with_metadata_body,
          if_neg hs, wrapDataError]
      · intro e _
        simp [read_excel_range_with_metadata, read_excel_range_with_metadata_body,
          if_neg hs]

/-- C2 amended witness: a concrete completed metadata read (with the
fallback loader exercised) has both handles closed at return. -/
theorem claim_c2_witness :
    (read_excel_range_with_metadata
      (.ok ⟨[("S", ⟨[((1, 1), ⟨PyVal.int 5, false⟩)]⟩)], some "S"⟩)
      (.ok ⟨[("S", ⟨[((1, 1), ⟨PyVal.int 5, false⟩)]⟩)], some "S"⟩)
      Option.none (fun _ _ => Option.none) "S" "A1" Option.none
      false true).snd.wbOpened = true ∧
    (read_excel_range_with_metadata
      (.ok ⟨[("S", ⟨[((1, 1), ⟨PyVal.int 5, false⟩)]⟩)], some "S"⟩)
      (.ok ⟨[("S", ⟨[((1, 1), ⟨PyVal.int 5, false⟩)]⟩)], some "S"⟩)
      Option.none (fun _ _ => Option.none) "S" "A1" Option.none
      false true).snd.wbClosed = true ∧
    ((read_excel_range_with_metadata
      (.ok ⟨[("S", ⟨[((1, 1), ⟨PyVal.int 5, false⟩)]⟩)], some "S"⟩)
      (.ok ⟨[("S", ⟨[((1, 1), ⟨PyVal.int 5, false⟩)]⟩)], some "S"⟩)
      Option.none (fun _ _ => Option.none) "S" "A1" Option.none
      false true).snd.wbvOpened = true →
     (read_excel_range_with_metadata
      (.ok ⟨[("S", ⟨[((1, 1), ⟨PyVal.int 5, false⟩)]⟩)], some "S"⟩)
      (.ok ⟨[("S", ⟨[((1, 1), ⟨PyVal.int 5, false⟩)]⟩)], some "S"⟩)
      Option.none (fun _ _ => Option.none) "S" "A1" Option.none
      false true).snd.wbvClosed = true) :=
  (claim_c2_resource_release
    (.ok ⟨[("S", ⟨[((1, 1), ⟨PyVal.int 5, false⟩)]⟩)], some "S"⟩)
    (.ok ⟨[("S", ⟨[((1, 1), ⟨PyVal.int 5, false⟩)]⟩)], some "S"⟩)
    Option.none (fun _ _ => Option.none) "S" "A1" Option.none false true).1
    ⟨"A1:A1", "S", [⟨"A1", PyVal.int 5, 1, 1, ValidationField.absent⟩]⟩ rfl rfl

/-- C6: over a resolved in-bounds region, the plain read returns exactly the
region's rows filtered to those with at least one non-empty value (rows kept
in full, empty cells in place), so no returned row is entirely empty; and
the metadata read returns exactly (endRow-startRow+1)*(endCol-startCol+1)
cell records. -/
theorem claim_c6_region_shape (wb : Workbook) (values_open : Except String Workbook)
    (xlcalc : Option (String → EvalOutcome)) (getv : Worksheet → String → Option String)
    (sheet_name start_cell : String) (end_cell : Option String)
    (preview_only include_validation evaluate_formulas : Bool)
    (sP : String) (srP scP erP ecP : Nat) (sM : String) (srM scM erM ecM : Nat)
    (hs : sheet_name ∈ wb.sheetnames)
    (hresP : plainResolveRegion (wb.getSheet sheet_name) start_cell end_cell =
      .ok (sP, srP, scP, erP, ecP))
    (hbP : ¬(srP > (wb.getSheet sheet_name).max_row ∨
             scP > (wb.getSheet sheet_name).max_column))
    (hresM : metaResolveRegion (wb.getSheet sheet_name) start_cell end_cell =
      .ok (sM, srM, scM, erM, ecM))
    (hbM : ¬(srM > (wb.getSheet sheet_name).max_row ∨
             scM > (wb.getSheet sheet_name).max_column)) :
    (read_excel_range (.ok wb) sheet_name start_cell end_cell preview_only).fst =
      .ok (((List.range (erP + 1 - srP)).map (fun i =>
        (List.range (ecP + 1 - scP)).map (fun j =>
          ((wb.getSheet sheet_name).cell (srP + i) (scP + j)).value))).filter
        (fun row_data => row_data.any (fun v => !decide (v = PyVal.none)))) ∧
    (∀ rows, (read_excel_range (.ok wb) sheet_name start_cell end_cell
        preview_only).fst = .ok rows →
      ∀ row_data ∈ rows, ∃ v ∈ row_data, ¬(v = PyVal.none)) ∧
    (∀ res, (read_excel_range_with_metadata (.ok wb) values_open xlcalc getv
        sheet_name start_cell end_cell include_validation evaluate_formulas).fst =
          .ok res →
      res.cells.length = (erM + 1 - srM) * (ecM + 1 - scM)) := by
  have hplain := plain_body_ok wb sheet_name start_cell end_cell preview_only
    sP srP scP erP ecP hs hresP hbP
  refine ⟨?_, ?_, ?_⟩
  · rw [hplain]
    rfl
  · intro rows h
    rw [hplain] at h
    simp only at h
    have hrows : rows = plainRegionRows (wb.getSheet sheet_name) srP scP erP ecP := by
      exact ((Except.ok.injEq _ _).mp h).symm
    subst hrows
    intro row_data hmem
    obtain ⟨-, hpred⟩ := List.mem_filter.mp hmem
    obtain ⟨v, hv, hvp⟩ := List.any_eq_true.mp hpred
    exact ⟨v, hv, by simpa using hvp⟩
  · intro res h
    simp only [read_excel_range_with_metadata, read_excel_range_with_metadata_body,
      if_pos hs, hresM, if_neg hbM, wrapDataError] at h
    have hres2 := (Except.ok.injEq _ _).mp h
    rw [← hres2]
    have hlen := fold_length (wb.getSheet sheet_name) sheet_name
      (if evaluate_formulas then xlcalc else Option.none)
      (if evaluate_formulas then
         some (fun row col st => _get_cached_value values_open sheet_name row col st)
       else Option.none)
      evaluate_formulas include_validation getv
      (regionCells srM scM erM ecM) ([], fbInit)
    simp only [List.length_nil, Nat.zero_add] at hlen
    simpa [regionCells_length] using hlen

/-- C6 witness: a sheet with data in rows 1 and 3 and an empty row 2 — the
plain read drops only the empty middle row; the metadata read over the same
3-by-1 region returns three records. -/
theorem claim_c6_witness :
    (read_excel_range
      (.ok ⟨[("S", ⟨[((1, 1), ⟨PyVal.int 1, false⟩), ((3, 1), ⟨PyVal.int 3, false⟩)]⟩)],
        some "S"⟩) "S" "A1" Option.none false).fst =
      .ok [[PyVal.int 1], [PyVal.int 3]] ∧
    ∃ res, (read_excel_range_with_metadata
      (.ok ⟨[("S", ⟨[((1, 1), ⟨PyVal.int 1, false⟩), ((3, 1), ⟨PyVal.int 3, false⟩)]⟩)],
        some "S"⟩) (.error "io") Option.none (fun _ _ => Option.none)
      "S" "A1" Option.none false false).fst = .ok res ∧ res.cells.length = 3 := by
  have h := claim_c6_region_shape
    ⟨[("S", ⟨[((1, 1), ⟨PyVal.int 1, false⟩), ((3, 1), ⟨PyVal.int 3, false⟩)]⟩)],
      some "S"⟩ (.error "io") Option.none (fun _ _ => Option.none)
    "S" "A1" Option.none false false false
    "A1" 1 1 3 1 "A1" 1 1 3 1 (by decide) rfl (by decide) rfl (by decide)
  constructor
  · rw [h.1]
    rfl
  · exact ⟨_, rfl, h.2.2 _ rfl⟩

/-- C1: for a formula cell read with evaluation requested (values-only view
openable and holding the sheet), the reported value follows the three-tier
chain: a non-null evaluator result from the token loop wins; otherwise a
non-null cached value for (row, col) from the fallback loader; otherwise
the literal formula text unchanged. -/
theorem claim_c1_formula_resolution (wb wbv : Workbook)
    (xlcalc : Option (String → EvalOutcome)) (getv : Worksheet → String → Option String)
    (sheet_name start_cell : String) (end_cell : Option String)
    (include_validation : Bool) (start_cell1 : String) (sr sc er ec r c : Nat)
    (ftext : String)
    (hs : sheet_name ∈ wb.sheetnames) (hvs : sheet_name ∈ wbv.sheetnames)
    (hres : metaResolveRegion (wb.getSheet sheet_name) start_cell end_cell =
      .ok (start_cell1, sr, sc, er, ec))
    (hb : ¬(sr > (wb.getSheet sheet_name).max_row ∨
            sc > (wb.getSheet sheet_name).max_column))
    (hr1 : sr ≤ r) (hr2 : r ≤ er) (hc1 : sc ≤ c) (hc2 : c ≤ ec)
    (hf : formulaTextOf ((wb.getSheet sheet_name).cell r c) = some ftext) :
    ∃ res, (read_excel_range_with_metadata (.ok wb) (.ok wbv) xlcalc getv sheet_name
        start_cell end_cell include_validation true).fst = .ok res ∧
      (∃ cd ∈ res.cells, cd.row = r ∧ cd.column = c) ∧
      (∀ cd ∈ res.cells, cd.row = r → cd.column = c →
        cd.value =
          match evalChainOpt xlcalc sheet_name (get_column_letter c ++ toString r) with
          | some v => v
          | Option.none =>
            if cachedValueOf wbv sheet_name r c = PyVal.none then PyVal.str ftext
            else cachedValueOf wbv sheet_name r c) := by
  have hbody := meta_body_ok wb wbv xlcalc getv sheet_name start_cell end_cell
    include_validation true start_cell1 sr sc er ec hs hvs hres hb
  rw [if_pos rfl] at hbody
  refine ⟨_, hbody, ?_, ?_⟩
  · exact ⟨metaPureRecord xlcalc wbv sheet_name true include_validation getv
      (wb.getSheet sheet_name) (r, c),
      List.mem_map_of_mem _ (regionCells_mem sr sc er ec r c hr1 hr2 hc1 hc2),
      rfl, rfl⟩
  · intro cd hcd hrow hcol
    obtain ⟨rc2, hrc2, hback⟩ := List.mem_map.mp hcd
    subst hback
    simp only [metaPureRecord] at hrow hcol ⊢
    subst hrow
    subst hcol
    simp only [metaPureValue, hf, if_pos rfl, if_true]

/-- C1 witness: a formula cell "=SUM(A1:A3)" at A1 with an evaluator
returning 6 for the token "S!A1" and a cached value 7 — the evaluator tier
wins and the reported value is 6. -/
theorem claim_c1_witness :
    ∃ res, (read_excel_range_with_metadata
        (.ok ⟨[("S", ⟨[((1, 1), ⟨PyVal.str "=SUM(A1:A3)", true⟩)]⟩)], some "S"⟩)
        (.ok ⟨[("S", ⟨[((1, 1), ⟨PyVal.int 7, false⟩)]⟩)], some "S"⟩)
        (some (fun t => if t = "S!A1" then EvalOutcome.ok (PyVal.int 6)
          else EvalOutcome.keyError))
        (fun _ _ => Option.none) "S" "A1" Option.none false true).fst = .ok res ∧
      (∃ cd ∈ res.cells, cd.row = 1 ∧ cd.column = 1) ∧
      (∀ cd ∈ res.cells, cd.row = 1 → cd.column = 1 → cd.value = PyVal.int 6) := by
  obtain ⟨res, h1, h2, h3⟩ := claim_c1_formula_resolution
    ⟨[("S", ⟨[((1, 1), ⟨PyVal.str "=SUM(A1:A3)", true⟩)]⟩)], some "S"⟩
    ⟨[("S", ⟨[((1, 1), ⟨PyVal.int 7, false⟩)]⟩)], some "S"⟩
    (some (fun t => if t = "S!A1" then EvalOutcome.ok (PyVal.int 6)
      else EvalOutcome.keyError))
    (fun _ _ => Option.none) "S" "A1" Option.none false "A1" 1 1 1 1 1 1
    "=SUM(A1:A3)" (by decide) (by decide) rfl (by decide)
    (le_refl 1) (le_refl 1) (le_refl 1) (le_refl 1) rfl
  exact ⟨res, h1, h2, fun cd hcd ha hb => (h3 cd hcd ha hb).trans rfl⟩

/-- C10: when formula evaluation is requested but no evaluator could be
constructed, the metadata read consults the fallback loader for every
non-formula cell, replacing the stored value exactly when the cached value
is non-null; formula-classified cells instead keep the evaluation chain
(cached value, else literal formula text) and are unaffected by this extra
path. -/
theorem claim_c10_noevaluator_fallback (wb wbv : Workbook)
    (getv : Worksheet → String → Option String)
    (sheet_name start_cell : String) (end_cell : Option String)
    (include_validation : Bool) (start_cell1 : String) (sr sc er ec r c : Nat)
    (hs : sheet_name ∈ wb.sheetnames) (hvs : sheet_name ∈ wbv.sheetnames)
    (hres : metaResolveRegion (wb.getSheet sheet_name) start_cell end_cell =
      .ok (start_cell1, sr, sc, er, ec))
    (hb : ¬(sr > (wb.getSheet sheet_name).max_row ∨
            sc > (wb.getSheet sheet_name).max_column))
    (hr1 : sr ≤ r) (hr2 : r ≤ er) (hc1 : sc ≤ c) (hc2 : c ≤ ec)
    (hnf : formulaTextOf ((wb.getSheet sheet_name).cell r c) = Option.none) :
    ∃ res, (read_excel_range_with_metadata (.ok wb) (.ok wbv) Option.none getv
        sheet_name start_cell end_cell include_validation true).fst = .ok res ∧
      (∃ cd ∈ res.cells, cd.row = r ∧ cd.column = c) ∧
      (∀ cd ∈ res.cells, cd.row = r → cd.column = c →
        cd.value =
          (if cachedValueOf wbv sheet_name r c = PyVal.none then
            ((wb.getSheet sheet_name).cell r c).value
          else cachedValueOf wbv sheet_name r c)) ∧
      (∀ cd ∈ res.cells, ∀ ftext,
        formulaTextOf ((wb.getSheet sheet_name).cell cd.row cd.column) = some ftext →
        cd.value =
          (if cachedValueOf wbv sheet_name cd.row cd.column = PyVal.none then
            PyVal.str ftext
          else cachedValueOf wbv sheet_name cd.row cd.column)) := by
  have hbody := meta_body_ok wb wbv Option.none getv sheet_name start_cell end_cell
    include_validation true start_cell1 sr sc er ec hs hvs hres hb
  rw [if_pos rfl] at hbody
  refine ⟨_, hbody, ?_, ?_, ?_⟩
  · exact ⟨metaPureRecord Option.none wbv sheet_name true include_validation getv
      (wb.getSheet sheet_name) (r, c),
      List.mem_map_of_mem _ (regionCells_mem sr sc er ec r c hr1 hr2 hc1 hc2),
      rfl, rfl⟩
  · intro cd hcd hrow hcol
    obtain ⟨rc2, hrc2, hback⟩ := List.mem_map.mp hcd
    subst hback
    simp only [metaPureRecord] at hrow hcol ⊢
    subst hrow
    subst hcol
    simp only [metaPureValue, hnf, if_true, evalChainOpt, Option.isNone_none,
      and_true, true_and, if_pos trivial]
  · intro cd hcd ftext hft
    obtain ⟨rc2, hrc2, hback⟩ := List.mem_map.mp hcd
    subst hback
    simp only [metaPureRecord] at hft ⊢
    simp only [metaPureValue, hft, if_true, evalChainOpt]

/-- C10 witness: a literal cell "lit" at A1 with no evaluator available and
a cached value 9 in the values-only view — the reported value is 9. -/
theorem claim_c10_witness :
    ∃ res, (read_excel_range_with_metadata
        (.ok ⟨[("S", ⟨[((1, 1), ⟨PyVal.str "lit", false⟩)]⟩)], some "S"⟩)
        (.ok ⟨[("S", ⟨[((1, 1), ⟨PyVal.int 9, false⟩)]⟩)], some "S"⟩)
        Option.none (fun _ _ => Option.none) "S" "A1" Option.none false true).fst =
      .ok res ∧
      (∃ cd ∈ res.cells, cd.row = 1 ∧ cd.column = 1) ∧
      (∀ cd ∈ res.cells, cd.row = 1 → cd.column = 1 → cd.value = PyVal.int 9) := by
  obtain ⟨res, h1, h2, h3, _⟩ := claim_c10_noevaluator_fallback
    ⟨[("S", ⟨[((1, 1), ⟨PyVal.str "lit", false⟩)]⟩)], some "S"⟩
    ⟨[("S", ⟨[((1, 1), ⟨PyVal.int 9, false⟩)]⟩)], some "S"⟩
    (fun _ _ => Option.none) "S" "A1" Option.none false "A1" 1 1 1 1 1 1
    (by decide) (by decide) rfl (by decide)
    (le_refl 1) (le_refl 1) (le_refl 1) (le_refl 1) rfl
  exact ⟨res, h1, h2, fun cd hcd ha hb => (h3 cd hcd ha hb).trans rfl⟩

theorem setEntry_find_eq (l : List ((Nat × Nat) × Cell)) (r c : Nat) (cl : Cell) :
    (setEntry l r c cl).find? (fun e => e.fst = (r, c)) = some ((r, c), cl) := by
  induction l with
  | nil => simp [setEntry, List.find?]
  | cons e rest ih =>
    by_cases he : e.fst = (r, c)
    · simp [setEntry, if_pos he, List.find?, he]
    · simp only [setEntry, if_neg he]
      rw [List.find?_cons_of_neg _ (by simpa using he)]
      exact ih

theorem setEntry_find_ne (l : List ((Nat × Nat) × Cell)) (r c : Nat) (cl : Cell)
    (r2 c2 : Nat) (hne : ¬((r2, c2) = (r, c))) :
    (setEntry l r c cl).find? (fun e => e.fst = (r2, c2)) =
      l.find? (fun e => e.fst = (r2, c2)) := by
  have hne2 : ¬(((r, c) : Nat × Nat) = (r2, c2)) := fun h => hne h.symm
  induction l with
  | nil =>
    simp only [setEntry]
    rw [List.find?_cons_of_neg _ (by simpa using hne2)]
  | cons e rest ih =>
    by_cases he : e.fst = (r, c)
    · have he2 : ¬(e.fst = (r2, c2)) := fun h => hne (h.symm.trans he)
      simp only [setEntry, if_pos he]
      rw [List.find?_cons_of_neg _ (by simpa using he2),
        List.find?_cons_of_neg _ (by simpa using he2)]
    · simp only [setEntry, if_neg he]
      by_cases he2 : e.fst = (r2, c2)
      · rw [List.find?_cons_of_pos _ (by simpa using he2),
          List.find?_cons_of_pos _ (by simpa using he2)]
      · rw [List.find?_cons_of_neg _ (by simpa using he2),
          List.find?_cons_of_neg _ (by simpa using he2)]
        exact ih

theorem setCellValue_cell_eq (ws : Worksheet) (r c : Nat) (v : PyVal) :
    ((ws.setCellValue r c v).cell r c).value = v := by
  simp only [Worksheet.setCellValue, Worksheet.cell, setEntry_find_eq]

theorem setCellValue_cell_ne (ws : Worksheet) (r c : Nat) (v : PyVal)
    (r2 c2 : Nat) (hne : ¬((r2, c2) = (r, c))) :
    (ws.setCellValue r c v).cell r2 c2 = ws.cell r2 c2 := by
  simp only [Worksheet.setCellValue, Worksheet.cell]
  rw [setEntry_find_ne _ _ _ _ _ _ hne]

theorem writeRowVals_cell_ne (vals : List PyVal) :
    ∀ (ws : Worksheet) (row col0 r2 c2 : Nat), (¬(r2 = row) ∨ c2 < col0) →
      (writeRowVals ws row col0 vals).cell r2 c2 = ws.cell r2 c2 := by
  induction vals with
  | nil => intro ws row col0 r2 c2 _; rfl
  | cons v rest ih =>
    intro ws row col0 r2 c2 h
    simp only [writeRowVals]
    rw [ih _ row (col0 + 1) r2 c2 (by omega)]
    apply setCellValue_cell_ne
    intro he
    obtain ⟨he1, he2⟩ := Prod.mk.injEq .. |>.mp he
    rcases h with h | h
    · exact h he1
    · omega

theorem writeRowVals_cell_get (vals : List PyVal) :
    ∀ (ws : Worksheet) (row col0 j : Nat) (hj : j < vals.length),
      ((writeRowVals ws row col0 vals).cell row (col0 + j)).value =
        vals.get ⟨j, hj⟩ := by
  induction vals with
  | nil => intro ws row col0 j hj; exact absurd hj (by simp)
  | cons v rest ih =>
    intro ws row col0 j hj
    cases j with
    | zero =>
      simp only [writeRowVals]
      rw [writeRowVals_cell_ne rest _ row (col0 + 1) row (col0 + 0) (by omega)]
      simpa using setCellValue_cell_eq ws row col0 v
    | succ j2 =>
      simp only [writeRowVals]
      have : col0 + (j2 + 1) = (col0 + 1) + j2 := by omega
      rw [this]
      exact ih _ row (col0 + 1) j2 (by simpa using Nat.lt_of_succ_lt_succ hj)

theorem writeRows_cell_lt_row (data : List (List PyVal)) :
    ∀ (ws : Worksheet) (row0 col0 r2 c2 : Nat), r2 < row0 →
      (writeRows ws row0 col0 data).cell r2 c2 = ws.cell r2 c2 := by
  induction data with
  | nil => intro ws row0 col0 r2 c2 _; rfl
  | cons rrow rest ih =>
    intro ws row0 col0 r2 c2 h
    simp only [writeRows]
    rw [ih _ (row0 + 1) col0 r2 c2 (by omega)]
    exact writeRowVals_cell_ne rrow ws row0 col0 r2 c2 (Or.inl (by omega))

theorem writeRows_cell_lt_col (data : List (List PyVal)) :
    ∀ (ws : Worksheet) (row0 col0 r2 c2 : Nat), c2 < col0 →
      (writeRows ws row0 col0 data).cell r2 c2 = ws.cell r2 c2 := by
  induction data with
  | nil => intro ws row0 col0 r2 c2 _; rfl
  | cons rrow rest ih =>
    intro ws row0 col0 r2 c2 h
    simp only [writeRows]
    rw [ih _ (row0 + 1) col0 r2 c2 h]
    exact writeRowVals_cell_ne rrow ws row0 col0 r2 c2 (Or.inr h)

theorem writeRows_cell_get (data : List (List PyVal)) :
    ∀ (ws : Worksheet) (row0 col0 i j : Nat) (hi : i < data.length)
      (hj : j < (data.get ⟨i, hi⟩).length),
      ((writeRows ws row0 col0 data).cell (row0 + i) (col0 + j)).value =
        (data.get ⟨i, hi⟩).get ⟨j, hj⟩ := by
  induction data with
  | nil => intro ws row0 col0 i j hi hj; exact absurd hi (by simp)
  | cons rrow rest ih =>
    intro ws row0 col0 i j hi hj
    cases i with
    | zero =>
      simp only [writeRows]
      rw [writeRows_cell_lt_row rest _ (row0 + 1) col0 (row0 + 0) (col0 + j)
        (by omega)]
      simpa using writeRowVals_cell_get rrow ws row0 col0 j (by simpa using hj)
    | succ i2 =>
      simp only [writeRows]
      have : row0 + (i2 + 1) = (row0 + 1) + i2 := by omega
      rw [this]
      exact ih _ (row0 + 1) col0 i2 j (by simpa using Nat.lt_of_succ_lt_succ hi)
        (by simpa using hj)

theorem getSheet_setSheet (wb : Workbook) (name : String) (ws : Worksheet)
    (hmem : name ∈ wb.sheetnames) :
    (wb.setSheet name ws).getSheet name = ws := by
  obtain ⟨sheets, active⟩ := wb
  simp only [Workbook.sheetnames] at hmem
  simp only [Workbook.setSheet, Workbook.getSheet]
  induction sheets with
  | nil => simp at hmem
  | cons e rest ih =>
    by_cases he : e.fst = name
    · simp only [List.map_cons, if_pos he]
      rw [List.find?_cons_of_pos _ (by simpa using he)]
    · simp only [List.map_cons, if_neg he]
      rw [List.find?_cons_of_neg _ (by simpa using he)]
      rw [List.map_cons, List.mem_cons] at hmem
      rcases hmem with h | h
      · exact absurd h.symm he
      · exact ih h

/-- C7: writeData places value[i][j] at (startRow+i, startCol+j) for every
index pair, leaves cells above or left of the start untouched (no
gap-filling, no coercion), and the saved workbook contains all placements;
in particular writing [[1,2],[3,4]] at "B2" sets the four cells (2,2)=1,
(2,3)=2, (3,2)=3, (3,3)=4 and a fresh read reproduces the matrix. -/
theorem claim_c7_write_placement (wb : Workbook) (s : String)
    (M : List (List PyVal)) (start_cell : String) (sr sc : Nat)
    (e2 : Option (Nat × Nat))
    (hM : ¬(M = [])) (hsne : ¬(s = "")) (hmem : s ∈ wb.sheetnames)
    (hp : parse_cell_range start_cell = some ((sr, sc), e2)) :
    (∃ out, write_data (.ok wb) (some s) (some M) start_cell = .ok out ∧
      out.active_sheet = s ∧ out.message = "Data written to " ++ s ∧
      (∀ i j (hi : i < M.length) (hj : j < (M.get ⟨i, hi⟩).length),
        ((out.saved.getSheet s).cell (sr + i) (sc + j)).value =
          (M.get ⟨i, hi⟩).get ⟨j, hj⟩) ∧
      (∀ r2 c2, r2 < sr ∨ c2 < sc →
        (out.saved.getSheet s).cell r2 c2 = (wb.getSheet s).cell r2 c2)) ∧
    (∃ out2, write_data (.ok ⟨[("Sheet1", ⟨[]⟩)], some "Sheet1"⟩) (some "Sheet1")
        (some [[PyVal.int 1, PyVal.int 2], [PyVal.int 3, PyVal.int 4]]) "B2" =
          .ok out2 ∧
      ((out2.saved.getSheet "Sheet1").cell 2 2).value = PyVal.int 1 ∧
      ((out2.saved.getSheet "Sheet1").cell 2 3).value = PyVal.int 2 ∧
      ((out2.saved.getSheet "Sheet1").cell 3 2).value = PyVal.int 3 ∧
      ((out2.saved.getSheet "Sheet1").cell 3 3).value = PyVal.int 4 ∧
      (read_excel_range (.ok out2.saved) "Sheet1" "A1" Option.none false).fst =
        .ok [[PyVal.int 1, PyVal.int 2], [PyVal.int 3, PyVal.int 4]]) := by
  constructor
  · have hdt : dataTruthy (some M) = true := by
      cases M with
      | nil => exact absurd rfl hM
      | cons a t => rfl
    have hie : M.isEmpty = false := by
      cases M with
      | nil => exact absurd rfl hM
      | cons a t => rfl
    have hlen : M.length > 0 := by
      cases M with
      | nil => exact absurd rfl hM
      | cons a t => simp
    have hwrite : _write_data_to_worksheet (wb.getSheet s) M start_cell =
        .ok (writeRows (wb.getSheet s) sr sc M) := by
      simp only [_write_data_to_worksheet, hie, Bool.false_eq_true, if_false, hp,
        wrapDataError]
    have hmain : write_data (.ok wb) (some s) (some M) start_cell =
        .ok ⟨"Data written to " ++ s, s,
          wb.setSheet s (writeRows (wb.getSheet s) sr sc M)⟩ := by
      simp only [write_data, write_data_body, hdt, Bool.not_true,
        Bool.false_eq_true, if_false, Option.getD_some, if_neg hsne, if_pos hmem,
        hp, if_pos hlen, hwrite, wrapDataError]
    refine ⟨⟨"Data written to " ++ s, s,
      wb.setSheet s (writeRows (wb.getSheet s) sr sc M)⟩, hmain, rfl, rfl, ?_, ?_⟩
    · intro i j hi hj
      show ((((wb.setSheet s (writeRows (wb.getSheet s) sr sc M))).getSheet s).cell
        (sr + i) (sc + j)).value = _
      rw [getSheet_setSheet wb s _ hmem]
      exact writeRows_cell_get M (wb.getSheet s) sr sc i j hi hj
    · intro r2 c2 h
      show (((wb.setSheet s (writeRows (wb.getSheet s) sr sc M))).getSheet s).cell
        r2 c2 = _
      rw [getSheet_setSheet wb s _ hmem]
      rcases h with h | h
      · exact writeRows_cell_lt_row M (wb.getSheet s) sr sc r2 c2 h
      · exact writeRows_cell_lt_col M (wb.getSheet s) sr sc r2 c2 h
  · exact ⟨_, rfl, rfl, rfl, rfl, rfl, rfl⟩

/-- C7 witness: the general placement result applied to the concrete
[[1,2],[3,4]]-at-"B2" write on a fresh one-sheet workbook. -/
theorem claim_c7_witness :
    ∃ out, write_data (.ok ⟨[("Sheet1", ⟨[]⟩)], some "Sheet1"⟩) (some "Sheet1")
        (some [[PyVal.int 1, PyVal.int 2], [PyVal.int 3, PyVal.int 4]]) "B2" =
      .ok out ∧ out.active_sheet = "Sheet1" ∧
      ((out.saved.getSheet "Sheet1").cell (2 + 0) (2 + 1)).value = PyVal.int 2 ∧
      (out.saved.getSheet "Sheet1").cell 1 1 =
        (Workbook.getSheet ⟨[("Sheet1", ⟨[]⟩)], some "Sheet1"⟩ "Sheet1").cell 1 1 := by
  obtain ⟨⟨out, h1, h2, _, h4, h5⟩, -⟩ := claim_c7_write_placement
    ⟨[("Sheet1", ⟨[]⟩)], some "Sheet1"⟩ "Sheet1"
    [[PyVal.int 1, PyVal.int 2], [PyVal.int 3, PyVal.int 4]] "B2" 2 2 Option.none
    (by simp) (by simp) (by decide) rfl
  exact ⟨out, h1, h2, h4 0 1 (by decide) (by decide), h5 1 1 (Or.inl (by decide))⟩
